import Mathlib

/-!
# rbrt: a shallow embedding of `src/rbrt.c`

`rbrt` parses its command line, enters a new user and pid namespace, maps one
uid/gid, drops to it, forks a namespace-init process that builds the mount
topology and chroots, which in turn forks the workload that execs the command.

Conventions of the embedding

* A C string is a Lean `String`; one `Char` stands for one C `char`, and the
  terminating NUL is implicit (no string contains it).
* The operating system is an `Oracle`: it answers, for every process and for
  the position of a call in that process's own sequence of calls, whether the
  call succeeds.  Every call a process makes is appended to its trace.
* `fork` is modelled by running the code path of the child and the code path
  of the parent; the three code paths are the three roles of the program.
* Diagnostics (`fprintf`, `printf`) are not part of the model.
-/

namespace Rbrt

/-! ## Constants of the system headers -/

def CLONE_NEWNS : Nat := 0x00020000
def CLONE_NEWUSER : Nat := 0x10000000
def CLONE_NEWPID : Nat := 0x20000000

def MS_RDONLY : Nat := 1
def MS_NOSUID : Nat := 2
def MS_NODEV : Nat := 4
def MS_REMOUNT : Nat := 32
def MS_BIND : Nat := 4096
def MS_REC : Nat := 16384

/-- The value of `PATH_MAX` in `<limits.h>` on Linux. -/
def PATH_MAX : Nat := 4096

/-- The search path installed by the workload before the overrides (line 311). -/
def DEFAULT_PATH : String :=
  "/usr/local/sbin:/usr/local/bin:/usr/bin:/usr/bin/site_perl:/usr/bin/vendor_perl:/usr/bin/core_perl"

/-! ## C library functions used by the program -/

/-- The loop `while (*p && *p != c) p++;`: the characters skipped, and the
text `p` points at afterwards (empty when the NUL was reached, otherwise it
starts with `c`). -/
def scan (c : Char) : List Char → List Char × List Char
  | [] => ([], [])
  | x :: xs => if x = c then ([], x :: xs) else ((scan c xs).1.cons x, (scan c xs).2)

/-- The text before the first `c` of an entry (what `source`/`key` names after
`*p++ = 0`). -/
def before (c : Char) (s : String) : String := ⟨(scan c s.data).1⟩

/-- The text after the first `c` of an entry (what `target`/`value` points at
after `*p++ = 0`). -/
def after (c : Char) (s : String) : String := ⟨(scan c s.data).2.drop 1⟩

/-- The test `!*p` after the scanning loop is false: the entry contains `c`. -/
def hasSep (c : Char) (s : String) : Bool := !(scan c s.data).2.isEmpty

/-- The C function `isspace` in the "C" locale. -/
def isspace (c : Char) : Bool :=
  c = Char.ofNat 32 || c = Char.ofNat 9 || c = Char.ofNat 10 || c = Char.ofNat 11 ||
  c = Char.ofNat 12 || c = Char.ofNat 13

/-- Conversion of a `long` to `int` (LP64): the low 32 bits, two's complement. -/
def toInt32 (z : Int) : Int := (z + 2147483648) % 4294967296 - 2147483648

/-- The clamping of `strtol` to the range of `long` (LP64). -/
def clampLong (z : Int) : Int :=
  if z < -9223372036854775808 then -9223372036854775808
  else if 9223372036854775807 < z then 9223372036854775807 else z

/-- The value of a run of decimal digits. -/
def digitsValue (ds : List Char) : Nat := ds.foldl (fun a d => 10 * a + (d.toNat - 48)) 0

/-- The call `sscanf(s, "%d", &x) == 1` and the value stored in `x`: white
space is skipped, an optional sign is read, then at least one decimal digit
is required; the conversion stops at the first character that is not a digit
and whatever follows is ignored.  `none` stands for a return value other than
1.  A value out of range is stored as glibc does (clamped by `strtol`, then
cut to 32 bits). -/
def sscanf_d (s : String) : Option Int :=
  let t := s.data.dropWhile isspace
  let neg := t.head? = some (Char.ofNat 45)
  let u := if t.head? = some (Char.ofNat 45) ∨ t.head? = some (Char.ofNat 43) then t.drop 1 else t
  let ds := u.takeWhile Char.isDigit
  if ds.isEmpty then none
  else some (toInt32 (clampLong (if neg then -(digitsValue ds : Int) else (digitsValue ds : Int))))

/-- The text produced by the conversion `%d`. -/
def fmt_d (z : Int) : String := toString z

/-- The call `snprintf(buf, size, ...)` applied to the fully formatted text
`s`: at most `size - 1` characters are stored. -/
def snprintf (size : Nat) (s : String) : String := ⟨s.data.take (size - 1)⟩

/-- The environment of a process: the value of each variable, if set. -/
abbrev Env := String → Option String

/-- The call `setenv(name, value, 1)` (POSIX): it fails with `EINVAL`, leaving
the environment as it is, when `name` is empty or contains `=`; otherwise the
variable is set, replacing any previous value.  The program ignores the
return value. -/
def setenv (name value : String) (env : Env) : Env :=
  if name.data.isEmpty ∨ (Char.ofNat 61) ∈ name.data then env
  else fun x => if x = name then some value else env x

/-- The macro `WEXITSTATUS`: bits 8..15 of a wait status. -/
def WEXITSTATUS (status : Nat) : Nat := (status / 256) % 256

/-- The wait status of a process that returns `ok` from `main`. -/
def exitStatus (ok : Int) : Nat := (ok % 256).toNat * 256

/-! ## Operations and the operating system -/

/-- The calls that the program makes (or, for `umount`, could make) and that
are recorded in the trace of a process. -/
inductive Op where
  | unshare (flags : Nat)
  | openRW (path : String)
  | write (path : String) (data : String)
  | close (path : String)
  | setuid (uid : Int)
  | setgid (gid : Int)
  | fork
  | mount (source : Option String) (target : String) (fstype : Option String) (flags : Nat)
  | umount (target : String)
  | chroot (path : String)
  | chdir (path : String)
  | execvp (file : String) (argv : List String)
  | waitpid (pid : Int)
  deriving DecidableEq, Repr

abbrev Trace := List Op

/-- The three code paths separated by the two `fork` calls. -/
inductive Role where
  | reporter
  | init
  | workload
  deriving DecidableEq, Repr

/-- The behaviour of everything outside the program. -/
structure Oracle where
  /-- Whether `realloc` of the mounts array to the given number of entries succeeds. -/
  reallocMounts : Nat → Bool
  /-- Whether `realloc` of the environment array to the given number of entries succeeds. -/
  reallocEnvs : Nat → Bool
  /-- Whether the call that a process makes after `n` earlier calls succeeds. -/
  sys : Role → Nat → Bool
  /-- The pid that a successful `fork` returns in the parent. -/
  pid : Role → Nat
  /-- The wait status with which the exec'ed command terminates; `none` if it never does. -/
  command : Option Nat
  /-- The status stored by `waitpid(-1, ...)`, called after a failed `fork`, if it succeeds. -/
  stray : Role → Nat

/-- One call: it is recorded, and control continues (`ok`) or jumps to
`errno_error` (`error`) according to the oracle. -/
def call (ok : Nat → Bool) (tr : Trace) (op : Op) : Except Trace Trace :=
  if ok tr.length then .ok (tr ++ [op]) else .error (tr ++ [op])

/-! ## Argument processing (lines 46-167) -/

/-- The variables that the option loop assigns. -/
structure Args where
  rootfs : Option String := none
  mounts : List String := []
  mounts_size : Nat := 0
  envs : List String := []
  envs_size : Nat := 0
  process_args : Option (List String) := none
  rw_root : Bool := false
  uid : Int := -1
  gid : Int := -1
  deriving DecidableEq, Repr

/-- The new capacity of a full array: `size == 0 ? 16 : size * 2`. -/
def grow (size : Nat) : Nat := if size = 0 then 16 else size * 2

/-- The option loop, on the arguments from index `i` on.  `none` is a jump to
`cleanup` with a diagnostic. -/
def parseLoop (o : Oracle) (st : Args) : List String → Option Args
  | [] => some st
  | opt :: rest =>
    if opt = "-r" ∨ opt = "--root" then
      match rest with
      | [] => none
      | v :: rest1 =>
        match rest1 with
        | w :: x :: rest2 =>
          if w = "rw" then parseLoop o { st with rootfs := some v, rw_root := true } (x :: rest2)
          else parseLoop o { st with rootfs := some v } (w :: x :: rest2)
        | [w] => parseLoop o { st with rootfs := some v } [w]
        | [] => parseLoop o { st with rootfs := some v } []
    else if opt = "-u" ∨ opt = "--uid" then
      match rest with
      | [] => none
      | v :: rest1 =>
        match sscanf_d v with
        | none => none
        | some n => parseLoop o { st with uid := n } rest1
    else if opt = "-g" ∨ opt = "--gid" then
      match rest with
      | [] => none
      | v :: rest1 =>
        match sscanf_d v with
        | none => none
        | some n => parseLoop o { st with gid := n } rest1
    else if opt = "-m" ∨ opt = "--mount" then
      match rest with
      | [] => none
      | v :: rest1 =>
        if st.mounts.length = st.mounts_size ∧ o.reallocMounts (grow st.mounts_size) = false
        then none
        else if hasSep (Char.ofNat 58) v = false then none
        else parseLoop o
          { st with
            mounts := st.mounts ++ [v],
            mounts_size :=
              if st.mounts.length = st.mounts_size then grow st.mounts_size else st.mounts_size }
          rest1
    else if opt = "-e" ∨ opt = "--env" then
      match rest with
      | [] => none
      | v :: rest1 =>
        if st.envs.length = st.envs_size ∧ o.reallocEnvs (grow st.envs_size) = false then none
        else if hasSep (Char.ofNat 61) v = false then none
        else parseLoop o
          { st with
            envs := st.envs ++ [v],
            envs_size := if st.envs.length = st.envs_size then grow st.envs_size else st.envs_size }
          rest1
    else if opt = "--" then
      match rest with
      | [] => none
      | c :: cs => some { st with process_args := some (c :: cs) }
    else none

/-- The option loop started with the initial values of the variables. -/
def parseArgs (o : Oracle) (argv : List String) : Option Args :=
  parseLoop o {} (argv.drop 1)

/-- The launch parameters after validation. -/
structure Launch where
  rootfs : String
  rw_root : Bool
  uid : Int
  gid : Int
  mounts : List String
  envs : List String
  process_args : List String
  deriving DecidableEq, Repr

/-- The three checks after the option loop (lines 154-167). -/
def check (st : Args) : Option Launch :=
  match st.rootfs with
  | none => none
  | some rootfs =>
    match st.process_args with
    | none => none
    | some process_args =>
      if st.uid = -1 ∨ st.gid = -1 then none
      else some
        { rootfs := rootfs, rw_root := st.rw_root, uid := st.uid, gid := st.gid,
          mounts := st.mounts, envs := st.envs, process_args := process_args }

/-- Argument processing as a whole: `none` when the program jumps to
`cleanup` before line 169. -/
def validate (o : Oracle) (argv : List String) : Option Launch :=
  (parseArgs o argv).bind check

/-! ## The processes -/

/-- What is observed of one process. -/
structure Proc where
  /-- The calls it made, in order. -/
  trace : Trace
  /-- The wait status with which it terminates; `none` if it never does. -/
  status : Option Nat
  deriving DecidableEq, Repr

/-- What is observed of a run of the program. -/
structure Run where
  reporter : Proc
  /-- The child of the first `fork`, if it was created. -/
  init : Option Proc
  /-- The child of the second `fork`, if it was created. -/
  workload : Option Proc
  /-- The environment of the workload when it calls `execvp`. -/
  environ : Option Env

/-- The pattern of lines 179-185, 187-193 and 195-201: open, write, close.
When the write fails the descriptor is still open and `cleanup` closes it. -/
def openWriteClose (ok : Nat → Bool) (tr : Trace) (path data : String) : Except Trace Trace :=
  match call ok tr (.openRW path) with
  | .error tr1 => .error tr1
  | .ok tr1 =>
    match call ok tr1 (.write path data) with
    | .error tr2 => .error (tr2 ++ [.close path])
    | .ok tr2 => .ok (tr2 ++ [.close path])

/-- Lines 169-206: the identity transition of the outermost process.  The map
texts have at most 25 characters for 32-bit `int`s, so `uid_map_len` is the
length of what the 64-byte buffers hold. -/
def identity (ok : Nat → Bool) (uid gid euid egid : Int) : Except Trace Trace := do
  let tr ← call ok [] (.unshare (CLONE_NEWUSER ||| CLONE_NEWPID))
  let uid_map := snprintf 64 (fmt_d uid ++ " " ++ fmt_d euid ++ " 1")
  let gid_map := snprintf 64 (fmt_d gid ++ " " ++ fmt_d egid ++ " 1")
  let tr ← openWriteClose ok tr "/proc/self/setgroups" "deny"
  let tr ← openWriteClose ok tr "/proc/self/uid_map" uid_map
  let tr ← openWriteClose ok tr "/proc/self/gid_map" gid_map
  let tr ← call ok tr (.setuid uid)
  call ok tr (.setgid gid)

def dev_overlays : List String := ["tty", "null", "zero", "full", "random", "urandom"]

/-- The loop of lines 234-244. -/
def devLoop (ok : Nat → Bool) (rootfs : String) : List String → Trace → Except Trace Trace
  | [], tr => .ok tr
  | d :: ds, tr =>
    match call ok tr (.mount (some (snprintf PATH_MAX ("/dev/" ++ d)))
        (snprintf PATH_MAX (rootfs ++ "/dev/" ++ d)) none MS_BIND) with
    | .error tr1 => .error tr1
    | .ok tr1 => devLoop ok rootfs ds tr1

/-- The loop of lines 282-297. -/
def userLoop (ok : Nat → Bool) (rootfs : String) : List String → Trace → Except Trace Trace
  | [], tr => .ok tr
  | m :: ms, tr =>
    match call ok tr (.mount (some (before (Char.ofNat 58) m))
        (snprintf PATH_MAX (rootfs ++ "/" ++ after (Char.ofNat 58) m)) none (MS_BIND ||| MS_REC)) with
    | .error tr1 => .error tr1
    | .ok tr1 => userLoop ok rootfs ms tr1

/-- Lines 210-307: mount namespace, mounts, chroot and chdir in the child of
the first `fork`. -/
def initSetup (ok : Nat → Bool) (a : Launch) : Except Trace Trace := do
  let tr ← call ok [] (.unshare CLONE_NEWNS)
  let tr ← call ok tr (.mount (some a.rootfs) a.rootfs none MS_BIND)
  let root_flags := MS_REMOUNT ||| MS_BIND ||| MS_NOSUID ||| MS_NODEV
  let root_flags := if !a.rw_root then root_flags ||| MS_RDONLY else root_flags
  let tr ← call ok tr (.mount (some a.rootfs) a.rootfs none root_flags)
  let tr ← devLoop ok a.rootfs dev_overlays tr
  let tr ← call ok tr (.mount (some "/etc/resolv.conf")
    (snprintf PATH_MAX (a.rootfs ++ "/etc/resolv.conf")) none MS_BIND)
  let tr ← call ok tr (.mount none (snprintf PATH_MAX (a.rootfs ++ "/dev/pts")) (some "devpts") 0)
  let tr ← call ok tr (.mount none (snprintf PATH_MAX (a.rootfs ++ "/dev/shm")) (some "tmpfs") 0)
  let tr ← call ok tr (.mount none (snprintf PATH_MAX (a.rootfs ++ "/run")) (some "tmpfs") 0)
  let tr ← call ok tr (.mount none (snprintf PATH_MAX (a.rootfs ++ "/tmp")) (some "tmpfs") 0)
  let tr ← call ok tr (.mount none (snprintf PATH_MAX (a.rootfs ++ "/proc")) (some "proc") 0)
  let tr ← userLoop ok a.rootfs a.mounts tr
  let tr ← call ok tr (.chroot a.rootfs)
  call ok tr (.chdir "/")

/-- The loop of lines 313-323. -/
def envLoop : List String → Env → Env
  | [], env => env
  | e :: es, env => envLoop es (setenv (before (Char.ofNat 61) e) (after (Char.ofNat 61) e) env)

/-- Lines 311-330: the child of the second `fork`.  It returns what is
observed of the process and its environment at the time of `execvp`. -/
def main_workload (o : Oracle) (env : Env) (a : Launch) : Proc × Env :=
  let env1 := envLoop a.envs (setenv "PATH" DEFAULT_PATH env)
  match call (o.sys .workload) [] (.execvp (a.process_args.headD "") a.process_args) with
  | .error tr => ({ trace := tr, status := some (exitStatus 1) }, env1)
  | .ok tr => ({ trace := tr, status := o.command }, env1)

/-- Lines 332-340 and 346-354: the parent of a `fork` waits and forwards.
`forked` says whether the `fork` succeeded and `child` is the wait status of
the child (when it terminates). -/
def waitForward (o : Oracle) (role : Role) (tr : Trace) (forked : Bool) (child : Option Nat) :
    Proc :=
  match call (o.sys role) tr (.waitpid (if forked then (o.pid role : Int) else -1)) with
  | .error tr1 => { trace := tr1, status := some (exitStatus 1) }
  | .ok tr1 =>
    if forked then
      { trace := tr1, status := child.map (fun st => exitStatus (WEXITSTATUS st)) }
    else
      { trace := tr1, status := some (exitStatus (WEXITSTATUS (o.stray role))) }

/-- Lines 210-342: the child of the first `fork`, with the workload and its
environment when the second `fork` created it. -/
def main_init (o : Oracle) (env : Env) (a : Launch) : Proc × Option (Proc × Env) :=
  match initSetup (o.sys .init) a with
  | .error tr => ({ trace := tr, status := some (exitStatus 1) }, none)
  | .ok tr =>
    if o.sys .init tr.length then
      (waitForward o .init (tr ++ [.fork]) true (main_workload o env a).1.status,
        some (main_workload o env a))
    else
      (waitForward o .init (tr ++ [.fork]) false none, none)

/-- Lines 169-376 after successful validation. -/
def launch (o : Oracle) (env : Env) (euid egid : Int) (a : Launch) : Run :=
  match identity (o.sys .reporter) a.uid a.gid euid egid with
  | .error tr =>
    { reporter := { trace := tr, status := some (exitStatus 1) },
      init := none, workload := none, environ := none }
  | .ok tr =>
    if o.sys .reporter tr.length then
      { reporter := waitForward o .reporter (tr ++ [.fork]) true (main_init o env a).1.status,
        init := some (main_init o env a).1,
        workload := (main_init o env a).2.map Prod.fst,
        environ := (main_init o env a).2.map Prod.snd }
    else
      { reporter := waitForward o .reporter (tr ++ [.fork]) false none,
        init := none, workload := none, environ := none }

/-- The program: `argv` is the argument vector, `env` the inherited
environment, `euid` and `egid` the results of `geteuid` and `getegid`. -/
def main (o : Oracle) (env : Env) (euid egid : Int) (argv : List String) : Run :=
  match validate o argv with
  | none =>
    { reporter := { trace := [], status := some (exitStatus 1) },
      init := none, workload := none, environ := none }
  | some a => launch o env euid egid a

/-- The exit code of a process that terminated by exiting. -/
def Proc.exitCode (p : Proc) : Option Nat := p.status.map WEXITSTATUS

/-- What is observed of the process with the given role, if it was created. -/
def Run.proc (r : Run) : Role → Option Proc
  | .reporter => some r.reporter
  | .init => r.init
  | .workload => r.workload

/-! ## Vocabulary of the statements -/

/-- A list of calls made one after the other, up to the first that fails. -/
def runOps (ok : Nat → Bool) : Trace → List Op → Except Trace Trace
  | tr, [] => .ok tr
  | tr, op :: ops =>
    match call ok tr op with
    | .error tr1 => .error tr1
    | .ok tr1 => runOps ok tr1 ops

/-- The calls of the identity transition, in program order. -/
def identityOps (uid gid euid egid : Int) : List Op :=
  [ .unshare (CLONE_NEWUSER ||| CLONE_NEWPID),
    .openRW "/proc/self/setgroups",
    .write "/proc/self/setgroups" "deny",
    .close "/proc/self/setgroups",
    .openRW "/proc/self/uid_map",
    .write "/proc/self/uid_map" (snprintf 64 (fmt_d uid ++ " " ++ fmt_d euid ++ " 1")),
    .close "/proc/self/uid_map",
    .openRW "/proc/self/gid_map",
    .write "/proc/self/gid_map" (snprintf 64 (fmt_d gid ++ " " ++ fmt_d egid ++ " 1")),
    .close "/proc/self/gid_map",
    .setuid uid,
    .setgid gid ]

/-- The positions, in `identityOps`, of the calls whose result the program
tests (all but the three `close`). -/
def identityChecked : List Nat := [0, 1, 2, 4, 5, 7, 8, 10, 11]

/-- The bind mount of one device node as the program issues it. -/
def devMount (rootfs d : String) : Op :=
  .mount (some (snprintf PATH_MAX ("/dev/" ++ d))) (snprintf PATH_MAX (rootfs ++ "/dev/" ++ d))
    none MS_BIND

/-- The bind mount of one `-m` entry as the program issues it. -/
def userMount (rootfs m : String) : Op :=
  .mount (some (before (Char.ofNat 58) m))
    (snprintf PATH_MAX (rootfs ++ "/" ++ after (Char.ofNat 58) m)) none (MS_BIND ||| MS_REC)

/-- The calls of the namespace-init process up to `chdir`, in program order,
with the paths as the program builds them. -/
def initOps (a : Launch) : List Op :=
  [ .unshare CLONE_NEWNS,
    .mount (some a.rootfs) a.rootfs none MS_BIND,
    .mount (some a.rootfs) a.rootfs none
      (if !a.rw_root then MS_REMOUNT ||| MS_BIND ||| MS_NOSUID ||| MS_NODEV ||| MS_RDONLY
        else MS_REMOUNT ||| MS_BIND ||| MS_NOSUID ||| MS_NODEV) ] ++
  dev_overlays.map (devMount a.rootfs) ++
  [ .mount (some "/etc/resolv.conf") (snprintf PATH_MAX (a.rootfs ++ "/etc/resolv.conf")) none
      MS_BIND,
    .mount none (snprintf PATH_MAX (a.rootfs ++ "/dev/pts")) (some "devpts") 0,
    .mount none (snprintf PATH_MAX (a.rootfs ++ "/dev/shm")) (some "tmpfs") 0,
    .mount none (snprintf PATH_MAX (a.rootfs ++ "/run")) (some "tmpfs") 0,
    .mount none (snprintf PATH_MAX (a.rootfs ++ "/tmp")) (some "tmpfs") 0,
    .mount none (snprintf PATH_MAX (a.rootfs ++ "/proc")) (some "proc") 0 ] ++
  a.mounts.map (userMount a.rootfs) ++
  [ .chroot a.rootfs, .chdir "/" ]

/-- The mount sequence in the words of the specification, for a root path, a
writable flag and the user bind mounts as (source, target) pairs. -/
def specMounts (root : String) (writable : Bool) (binds : List (String × String)) : List Op :=
  [ .mount (some root) root none MS_BIND,
    .mount (some root) root none
      (MS_REMOUNT ||| MS_BIND ||| MS_NOSUID ||| MS_NODEV ||| (if writable then 0 else MS_RDONLY)) ] ++
  ["tty", "null", "zero", "full", "random", "urandom"].map
    (fun n => Op.mount (some ("/dev/" ++ n)) (root ++ "/dev/" ++ n) none MS_BIND) ++
  [ .mount (some "/etc/resolv.conf") (root ++ "/etc/resolv.conf") none MS_BIND,
    .mount none (root ++ "/dev/pts") (some "devpts") 0,
    .mount none (root ++ "/dev/shm") (some "tmpfs") 0,
    .mount none (root ++ "/run") (some "tmpfs") 0,
    .mount none (root ++ "/tmp") (some "tmpfs") 0,
    .mount none (root ++ "/proc") (some "proc") 0 ] ++
  binds.map (fun b => Op.mount (some b.1) (root ++ "/" ++ b.2) none (MS_BIND ||| MS_REC))

/-- The entry `source:target` of a bind mount. -/
def bindEntry (b : String × String) : String := b.1 ++ ":" ++ b.2

/-- The key of an entry in the words of the specification: the text before
the first `=`. -/
def entryKey (e : String) : String := ⟨e.data.takeWhile (fun c => c ≠ Char.ofNat 61)⟩

/-- The value of an entry in the words of the specification: everything after
the first `=`. -/
def entryValue (e : String) : String := ⟨(e.data.dropWhile (fun c => c ≠ Char.ofNat 61)).drop 1⟩

/-- The value of the last entry whose key is `k`. -/
def lastValue (entries : List String) (k : String) : Option String :=
  ((entries.filter (fun e => entryKey e = k)).getLast?).map entryValue

/-- The steps whose failure the program tests and reports: every call but
`fork` and `close`. -/
def Op.checked : Op → Bool
  | .fork => false
  | .close _ => false
  | _ => true

/-- A mount-namespace or mount operation. -/
def Op.isMountOp : Op → Bool
  | .mount _ _ _ _ => true
  | .umount _ => true
  | .unshare flags => decide (flags = CLONE_NEWNS)
  | _ => false

/-- A process hit a failure: one of the tested calls of its trace failed. -/
def hitFailure (ok : Nat → Bool) (tr : Trace) : Prop :=
  ∃ i op, tr[i]? = some op ∧ op.checked = true ∧ ok i = false

/-- An oracle under which every call succeeds, the command ends with wait
status `st` and every `fork` returns pid 7 in the parent. -/
def calm (st : Option Nat) : Oracle :=
  { reallocMounts := fun _ => true, reallocEnvs := fun _ => true, sys := fun _ _ => true,
    pid := fun _ => 7, command := st, stray := fun _ => 0 }

/-- The oracle `calm` except that the call at position `k` of process `role` fails. -/
def failingAt (role : Role) (k : Nat) (st : Option Nat) : Oracle :=
  { calm st with sys := fun r i => !(decide (r = role) && decide (i = k)) }

/-- The empty environment. -/
def noEnv : Env := fun _ => none

/-- What a successful run of the option loop from state `st` on the arguments
`l` has done when it ends in state `st2`: it consumed the words `pre`, which
either are all of `l` (the command is as it was) or are followed by the
terminator and a non-empty command; uid and gid change only through their
option words; every entry recorded has its separator. -/
def Consumed (st : Args) (l : List String) (st2 : Args) : Prop :=
  ∃ pre : List String,
    ((l = pre ∧ st2.process_args = st.process_args) ∨
      (∃ cmd, l = pre ++ "--" :: cmd ∧ cmd ≠ [] ∧ st2.process_args = some cmd)) ∧
    (st2.uid = st.uid ∨ "-u" ∈ pre ∨ "--uid" ∈ pre) ∧
    (st2.gid = st.gid ∨ "-g" ∈ pre ∨ "--gid" ∈ pre) ∧
    (∀ m, m ∈ st2.mounts → m ∈ st.mounts ∨ hasSep (Char.ofNat 58) m = true) ∧
    (∀ e, e ∈ st2.envs → e ∈ st.envs ∨ hasSep (Char.ofNat 61) e = true)

/-- The command line of the end-to-end example with `/bin/false`. -/
def argvFalse : List String :=
  ["rbrt", "-r", "/r", "-u", "1000", "-g", "1000", "--", "/bin/false"]

/-- The launch parameters that `argvFalse` denotes. -/
def launchFalse : Launch :=
  { rootfs := "/r", rw_root := false, uid := 1000, gid := 1000, mounts := [], envs := [],
    process_args := ["/bin/false"] }

/-- The command line of the end-to-end example with a bind mount, the root
being writable. -/
def argvData : List String :=
  ["rbrt", "-r", "/r", "rw", "-u", "1000", "-g", "1000", "-m", "/host/data:data", "--",
    "/bin/echo", "hello"]

/-- The launch parameters that `argvData` denotes. -/
def launchData : Launch :=
  { rootfs := "/r", rw_root := true, uid := 1000, gid := 1000, mounts := ["/host/data:data"],
    envs := [], process_args := ["/bin/echo", "hello"] }

/-- A relative path of 4096 characters. -/
def longTarget : String := ⟨List.replicate 4096 'a'⟩

/-- A command line with a bind mount whose target is `longTarget`. -/
def argvLong : List String :=
  ["rbrt", "-r", "/r", "-u", "1000", "-g", "1000", "-m", bindEntry ("/s", longTarget), "--",
    "/bin/true"]

/-- The launch parameters that `argvLong` denotes. -/
def launchLong : Launch :=
  { rootfs := "/r", rw_root := false, uid := 1000, gid := 1000,
    mounts := [bindEntry ("/s", longTarget)], envs := [], process_args := ["/bin/true"] }

/-- The length of the mount point of a mount operation (0 for other calls). -/
def Op.targetLen : Op → Nat
  | .mount _ target _ _ => target.length
  | _ => 0

/-! ## Lemmas on calls and sequences of calls -/

theorem runOps_nil (ok : Nat → Bool) (tr : Trace) : runOps ok tr [] = pure tr := rfl

theorem runOps_cons (ok : Nat → Bool) (op : Op) (ops : List Op) (tr : Trace) :
    runOps ok tr (op :: ops) = call ok tr op >>= fun t => runOps ok t ops := by
  simp only [runOps, bind, Except.bind]
  cases call ok tr op <;> rfl

theorem runOps_append (ok : Nat → Bool) (xs ys : List Op) (tr : Trace) :
    runOps ok tr (xs ++ ys) = runOps ok tr xs >>= fun t => runOps ok t ys := by
  induction xs generalizing tr with
  | nil => simp [runOps_nil]
  | cons x xs ih => simp [runOps_cons, ih]

theorem devLoop_eq (ok : Nat → Bool) (rootfs : String) (ds : List String) (tr : Trace) :
    devLoop ok rootfs ds tr = runOps ok tr (ds.map (devMount rootfs)) := by
  induction ds generalizing tr with
  | nil => rfl
  | cons d ds ih =>
    simp only [devLoop, List.map_cons, runOps, devMount]
    cases h : call ok tr _ with
    | error t => simp
    | ok t => simpa [devMount] using ih t

theorem userLoop_eq (ok : Nat → Bool) (rootfs : String) (ms : List String) (tr : Trace) :
    userLoop ok rootfs ms tr = runOps ok tr (ms.map (userMount rootfs)) := by
  induction ms generalizing tr with
  | nil => rfl
  | cons d ds ih =>
    simp only [userLoop, List.map_cons, runOps, userMount]
    cases h : call ok tr _ with
    | error t => simp
    | ok t => simpa [userMount] using ih t

theorem initSetup_eq (ok : Nat → Bool) (a : Launch) :
    initSetup ok a = runOps ok [] (initOps a) := by
  simp only [initSetup, initOps, devLoop_eq, userLoop_eq, runOps_append, runOps_cons, runOps_nil,
    List.cons_append, List.nil_append, bind_assoc, bind_pure, pure_bind]

theorem runOps_ok_iff (ok : Nat → Bool) (ops : List Op) (tr t : Trace) :
    runOps ok tr ops = .ok t ↔ t = tr ++ ops ∧ ∀ i, i < ops.length → ok (tr.length + i) = true := by
  induction ops generalizing tr with
  | nil =>
    simp only [runOps, List.append_nil, List.length_nil, Nat.not_lt_zero, false_implies,
      implies_true, and_true, Except.ok.injEq]
    exact eq_comm
  | cons op ops ih =>
    simp only [runOps, call]
    by_cases h : ok tr.length = true
    · simp only [h, if_true, ih, List.length_append, List.length_singleton, List.append_assoc,
        List.singleton_append, List.length_cons]
      constructor
      · rintro ⟨rfl, h2⟩
        refine ⟨rfl, fun i hi => ?_⟩
        cases i with
        | zero => simpa using h
        | succ j =>
          have := h2 j (by omega)
          rwa [show tr.length + (j + 1) = tr.length + 1 + j by omega]
      · rintro ⟨rfl, h2⟩
        refine ⟨rfl, fun i hi => ?_⟩
        have := h2 (i + 1) (by omega)
        simp only [List.length_nil, Nat.zero_add]
        rwa [show tr.length + 1 + i = tr.length + (i + 1) by omega]
    · simp only [h, Bool.false_eq_true, if_false, false_iff, not_and, not_forall, reduceCtorEq]
      intro _
      exact ⟨0, by simp, by simpa using h⟩

theorem runOps_fail_at (ok : Nat → Bool) (ops : List Op) (tr : Trace) (k : Nat)
    (hk : k < ops.length) (hbefore : ∀ j, j < k → ok (tr.length + j) = true)
    (hfail : ok (tr.length + k) = false) :
    runOps ok tr ops = .error (tr ++ ops.take (k + 1)) := by
  induction ops generalizing tr k with
  | nil => simp at hk
  | cons op ops ih =>
    simp only [runOps, call]
    cases k with
    | zero =>
      have h0 : ok tr.length = false := by simpa using hfail
      simp [h0]
    | succ k =>
      have h0 : ok tr.length = true := by simpa using hbefore 0 (by omega)
      simp only [h0, if_true]
      have := ih (tr ++ [op]) k (by simpa using hk)
        (fun j hj => by
          have := hbefore (j + 1) (by omega)
          simpa [show tr.length + 1 + j = tr.length + (j + 1) by omega] using this)
        (by simpa [show tr.length + 1 + k = tr.length + (k + 1) by omega] using hfail)
      simpa using this

theorem identity_spec (ok : Nat → Bool) (uid gid euid egid : Int) :
    (identity ok uid gid euid egid = .ok (identityOps uid gid euid egid) ∧
        ∀ i, i ∈ identityChecked → ok i = true) ∨
      (∃ t, identity ok uid gid euid egid = .error t ∧ t <+: identityOps uid gid euid egid ∧
        ∃ i, i ∈ identityChecked ∧ ok i = false) := by
  cases h0 : ok 0
  · refine Or.inr ⟨(identityOps uid gid euid egid).take 1, ?_, List.take_prefix _ _, 0, by decide, h0⟩
    simp [identity, openWriteClose, call, identityOps, h0, bind, Except.bind]
  cases h1 : ok 1
  · refine Or.inr ⟨(identityOps uid gid euid egid).take 2, ?_, List.take_prefix _ _, 1, by decide, h1⟩
    simp [identity, openWriteClose, call, identityOps, h0, h1, bind, Except.bind]
  cases h2 : ok 2
  · refine Or.inr ⟨(identityOps uid gid euid egid).take 4, ?_, List.take_prefix _ _, 2, by decide, h2⟩
    simp [identity, openWriteClose, call, identityOps, h0, h1, h2, bind, Except.bind]
  cases h4 : ok 4
  · refine Or.inr ⟨(identityOps uid gid euid egid).take 5, ?_, List.take_prefix _ _, 4, by decide, h4⟩
    simp [identity, openWriteClose, call, identityOps, h0, h1, h2, h4, bind, Except.bind]
  cases h5 : ok 5
  · refine Or.inr ⟨(identityOps uid gid euid egid).take 7, ?_, List.take_prefix _ _, 5, by decide, h5⟩
    simp [identity, openWriteClose, call, identityOps, h0, h1, h2, h4, h5, bind, Except.bind]
  cases h7 : ok 7
  · refine Or.inr ⟨(identityOps uid gid euid egid).take 8, ?_, List.take_prefix _ _, 7, by decide, h7⟩
    simp [identity, openWriteClose, call, identityOps, h0, h1, h2, h4, h5, h7, bind, Except.bind]
  cases h8 : ok 8
  · refine Or.inr ⟨(identityOps uid gid euid egid).take 10, ?_, List.take_prefix _ _, 8, by decide, h8⟩
    simp [identity, openWriteClose, call, identityOps, h0, h1, h2, h4, h5, h7, h8, bind, Except.bind]
  cases h10 : ok 10
  · refine Or.inr ⟨(identityOps uid gid euid egid).take 11, ?_, List.take_prefix _ _, 10, by decide, h10⟩
    simp [identity, openWriteClose, call, identityOps, h0, h1, h2, h4, h5, h7, h8, h10, bind,
      Except.bind]
  cases h11 : ok 11
  · refine Or.inr ⟨(identityOps uid gid euid egid).take 12, ?_, List.take_prefix _ _, 11, by decide, h11⟩
    simp [identity, openWriteClose, call, identityOps, h0, h1, h2, h4, h5, h7, h8, h10, h11, bind,
      Except.bind]
  refine Or.inl ⟨?_, ?_⟩
  · simp [identity, openWriteClose, call, identityOps, h0, h1, h2, h4, h5, h7, h8, h10, h11, bind,
      Except.bind]
  · intro i hi
    simp only [identityChecked, List.mem_cons, List.mem_singleton, List.not_mem_nil, or_false] at hi
    rcases hi with rfl | rfl | rfl | rfl | rfl | rfl | rfl | rfl | rfl <;> assumption

/-! ## Lemmas on the processes -/

theorem WEXITSTATUS_exited (c : Nat) (hc : c < 256) : WEXITSTATUS (c * 256) = c := by
  unfold WEXITSTATUS
  omega

theorem exitStatus_natCast (c : Nat) (hc : c < 256) : exitStatus (c : Int) = c * 256 := by
  unfold exitStatus
  omega

theorem main_of_validate {o : Oracle} {argv : List String} {a : Launch} (env : Env)
    (euid egid : Int) (h : validate o argv = some a) :
    main o env euid egid argv = launch o env euid egid a := by
  simp [main, h]

theorem identityOps_length (uid gid euid egid : Int) :
    (identityOps uid gid euid egid).length = 12 := rfl

theorem identity_all_ok (ok : Nat → Bool) (uid gid euid egid : Int)
    (h : ∀ i, i ∈ identityChecked → ok i = true) :
    identity ok uid gid euid egid = .ok (identityOps uid gid euid egid) := by
  rcases identity_spec ok uid gid euid egid with ⟨h1, _⟩ | ⟨t, _, _, i, hi, hf⟩
  · exact h1
  · rw [h i hi] at hf
    cases hf

theorem initSetup_all_ok (ok : Nat → Bool) (a : Launch)
    (h : ∀ i, i < (initOps a).length → ok i = true) :
    initSetup ok a = .ok (initOps a) := by
  rw [initSetup_eq, runOps_ok_iff]
  exact ⟨by simp, fun i hi => by simpa using h i hi⟩

theorem waitForward_trace (o : Oracle) (role : Role) (tr : Trace) (forked : Bool)
    (child : Option Nat) :
    (waitForward o role tr forked child).trace =
      tr ++ [.waitpid (if forked then (o.pid role : Int) else -1)] := by
  unfold waitForward call
  by_cases h : o.sys role tr.length = true <;> cases forked <;> simp [h]

theorem waitForward_status_error (o : Oracle) (role : Role) (tr : Trace) (forked : Bool)
    (child : Option Nat) (h : o.sys role tr.length = false) :
    (waitForward o role tr forked child).status = some (exitStatus 1) := by
  simp [waitForward, call, h]

theorem waitForward_status_ok (o : Oracle) (role : Role) (tr : Trace) (child : Option Nat)
    (h : o.sys role tr.length = true) :
    (waitForward o role tr true child).status =
      child.map (fun st => exitStatus (WEXITSTATUS st)) := by
  simp [waitForward, call, h]

/-- A supervisor whose child exited with code 1 exits with code 1, whether
its own wait succeeds or fails. -/
theorem waitForward_status_one (o : Oracle) (role : Role) (tr : Trace) :
    (waitForward o role tr true (some (exitStatus 1))).status = some (exitStatus 1) := by
  cases h : o.sys role tr.length
  · exact waitForward_status_error o role tr true _ h
  · rw [waitForward_status_ok o role tr _ h]
    decide

/-- What the namespace-init process does once mount construction and the
change of root succeeded. -/
theorem main_init_of_setup_ok (o : Oracle) (env : Env) (a : Launch)
    (h : ∀ i, i < (initOps a).length → o.sys .init i = true) :
    (main_init o env a).1.trace =
      initOps a ++
        [.fork, .waitpid (if o.sys .init (initOps a).length then (o.pid .init : Int) else -1)] := by
  simp only [main_init, initSetup_all_ok _ a h]
  by_cases hf : o.sys .init (initOps a).length = true
  · simp [hf, waitForward_trace]
  · simp [hf, waitForward_trace]

theorem launch_all_ok (o : Oracle) (env : Env) (euid egid : Int) (a : Launch)
    (hall : ∀ role i, o.sys role i = true) :
    (launch o env euid egid a).reporter =
        { trace := identityOps a.uid a.gid euid egid ++ [.fork, .waitpid (o.pid .reporter)],
          status := o.command.map
            (fun st => exitStatus (WEXITSTATUS (exitStatus (WEXITSTATUS st)))) } ∧
      (launch o env euid egid a).init =
        some { trace := initOps a ++ [.fork, .waitpid (o.pid .init)],
               status := o.command.map (fun st => exitStatus (WEXITSTATUS st)) } ∧
      (launch o env euid egid a).workload =
        some { trace := [.execvp (a.process_args.headD "") a.process_args],
               status := o.command } := by
  have hid := identity_all_ok (o.sys .reporter) a.uid a.gid euid egid (fun i _ => hall _ i)
  have hin := initSetup_all_ok (o.sys .init) a (fun i _ => hall _ i)
  simp only [launch, hid, main_init, hin, hall, if_true, waitForward, call, main_workload]
  cases o.command <;> simp

theorem identityOps_checked (uid gid euid egid : Int) (i : Nat) (op : Op)
    (h : (identityOps uid gid euid egid)[i]? = some op) (hc : op.checked = true) :
    i ∈ identityChecked := by
  have hi : i < 12 := by
    have := (List.getElem?_eq_some_iff.1 h).1
    simpa [identityOps_length] using this
  interval_cases i <;> simp [identityOps] at h <;> subst h <;>
    simp [Op.checked, identityChecked] at *

/-- A supervisor all of whose earlier tested calls succeeded and that hit a
failure exits with code 1: the failure is that of its `waitpid`. -/
theorem waitForward_hit (o : Oracle) (role : Role) (tr : Trace) (forked : Bool)
    (child : Option Nat)
    (hpre : ∀ i op, tr[i]? = some op → op.checked = true → o.sys role i = true)
    (h : hitFailure (o.sys role) (waitForward o role tr forked child).trace) :
    (waitForward o role tr forked child).status = some (exitStatus 1) := by
  rw [waitForward_trace] at h
  obtain ⟨i, op, hget, hchk, hfail⟩ := h
  rcases Nat.lt_trichotomy i tr.length with hlt | heq | hgt
  · rw [List.getElem?_append_left hlt] at hget
    rw [hpre i op hget hchk] at hfail
    cases hfail
  · subst heq
    exact waitForward_status_error o role tr forked child hfail
  · have : (tr ++ [Op.waitpid (if forked = true then (o.pid role : Int) else -1)])[i]? = none := by
      apply List.getElem?_eq_none
      simp
      omega
    rw [this] at hget
    cases hget

/-- The tested calls before a `waitpid` all succeeded when the calls before
the `fork` did. -/
theorem checked_before_wait (ok : Nat → Bool) (ops : List Op)
    (hok : ∀ i op, ops[i]? = some op → op.checked = true → ok i = true) :
    ∀ i op, (ops ++ [Op.fork])[i]? = some op → op.checked = true → ok i = true := by
  intro i op hget hchk
  by_cases hi : i < ops.length
  · rw [List.getElem?_append_left hi] at hget
    exact hok i op hget hchk
  · rw [List.getElem?_append_right (by omega)] at hget
    have hop : op = Op.fork := by
      cases hj : i - ops.length with
      | zero => simpa [hj] using hget.symm
      | succ j => simp [hj] at hget
    subst hop
    cases hchk

/-- The three ways the namespace-init process can go. -/
theorem main_init_cases (o : Oracle) (env : Env) (a : Launch) :
    (∃ tr, initSetup (o.sys .init) a = .error tr ∧
        main_init o env a = ({ trace := tr, status := some (exitStatus 1) }, none)) ∨
      ((∀ i, i < (initOps a).length → o.sys .init i = true) ∧
        o.sys .init (initOps a).length = true ∧
        main_init o env a =
          (waitForward o .init (initOps a ++ [.fork]) true (main_workload o env a).1.status,
            some (main_workload o env a))) ∨
      ((∀ i, i < (initOps a).length → o.sys .init i = true) ∧
        o.sys .init (initOps a).length = false ∧
        main_init o env a = (waitForward o .init (initOps a ++ [.fork]) false none, none)) := by
  cases hs : initSetup (o.sys .init) a with
  | error tr => exact Or.inl ⟨tr, rfl, by simp [main_init, hs]⟩
  | ok tr =>
    have hs2 := hs
    rw [initSetup_eq, runOps_ok_iff] at hs2
    obtain ⟨rfl, hok⟩ := hs2
    simp only [List.nil_append, List.length_nil, Nat.zero_add] at hok
    cases hf : o.sys .init (initOps a).length
    · exact Or.inr (Or.inr ⟨hok, rfl, by simp [main_init, hs, hf]⟩)
    · exact Or.inr (Or.inl ⟨hok, rfl, by simp [main_init, hs, hf]⟩)

/-- The three ways the outermost process can go after validation. -/
theorem launch_cases (o : Oracle) (env : Env) (euid egid : Int) (a : Launch) :
    (∃ tr, tr <+: identityOps a.uid a.gid euid egid ∧
        (∃ i, i ∈ identityChecked ∧ o.sys .reporter i = false) ∧
        launch o env euid egid a =
          { reporter := { trace := tr, status := some (exitStatus 1) },
            init := none, workload := none, environ := none }) ∨
      ((∀ i, i ∈ identityChecked → o.sys .reporter i = true) ∧ o.sys .reporter 12 = true ∧
        launch o env euid egid a =
          { reporter := waitForward o .reporter (identityOps a.uid a.gid euid egid ++ [.fork]) true
              (main_init o env a).1.status,
            init := some (main_init o env a).1,
            workload := (main_init o env a).2.map Prod.fst,
            environ := (main_init o env a).2.map Prod.snd }) ∨
      ((∀ i, i ∈ identityChecked → o.sys .reporter i = true) ∧ o.sys .reporter 12 = false ∧
        launch o env euid egid a =
          { reporter := waitForward o .reporter (identityOps a.uid a.gid euid egid ++ [.fork])
              false none,
            init := none, workload := none, environ := none }) := by
  rcases identity_spec (o.sys .reporter) a.uid a.gid euid egid with ⟨hid, hok⟩ | ⟨t, hid, hpre, hf⟩
  · cases hf : o.sys .reporter 12
    · exact Or.inr (Or.inr ⟨hok, rfl, by simp [launch, hid, identityOps_length, hf]⟩)
    · exact Or.inr (Or.inl ⟨hok, rfl, by simp [launch, hid, identityOps_length, hf]⟩)
  · exact Or.inl ⟨t, hpre, hf, by simp [launch, hid]⟩

theorem main_init_hit (o : Oracle) (env : Env) (a : Launch)
    (h : hitFailure (o.sys .init) (main_init o env a).1.trace) :
    (main_init o env a).1.status = some (exitStatus 1) := by
  rcases main_init_cases o env a with ⟨tr, _, he⟩ | ⟨hok, _, he⟩ | ⟨hok, _, he⟩
  · rw [he]
  · rw [he] at h ⊢
    exact waitForward_hit o .init _ _ _
      (checked_before_wait _ _ (fun i op hget _ => hok i (List.getElem?_eq_some_iff.1 hget).1)) h
  · rw [he] at h ⊢
    exact waitForward_hit o .init _ _ _
      (checked_before_wait _ _ (fun i op hget _ => hok i (List.getElem?_eq_some_iff.1 hget).1)) h

theorem main_workload_hit (o : Oracle) (env : Env) (a : Launch)
    (h : hitFailure (o.sys .workload) (main_workload o env a).1.trace) :
    (main_workload o env a).1.status = some (exitStatus 1) := by
  unfold main_workload call at h ⊢
  cases h0 : o.sys .workload 0
  · simp [h0]
  · simp only [List.length_nil, h0, if_true, List.nil_append] at h
    obtain ⟨i, op, hget, _, hfail⟩ := h
    cases i with
    | zero => rw [h0] at hfail; cases hfail
    | succ j => simp at hget

theorem main_init_workload_hit (o : Oracle) (env : Env) (a : Launch) (w : Proc)
    (hw : (main_init o env a).2.map Prod.fst = some w)
    (h : hitFailure (o.sys .workload) w.trace) :
    w.status = some (exitStatus 1) ∧ (main_init o env a).1.status = some (exitStatus 1) := by
  rcases main_init_cases o env a with ⟨tr, _, he⟩ | ⟨hok, _, he⟩ | ⟨hok, _, he⟩
  · rw [he] at hw
    cases hw
  · rw [he] at hw ⊢
    simp only [Option.map_some', Option.some.injEq] at hw
    subst hw
    have hst := main_workload_hit o env a h
    refine ⟨hst, ?_⟩
    simp only [hst]
    exact waitForward_status_one o .init _
  · rw [he] at hw
    cases hw

theorem identityOps_no_fork (uid gid euid egid : Int) :
    Op.fork ∉ identityOps uid gid euid egid := by
  simp [identityOps]

theorem identityOps_no_mount (uid gid euid egid : Int) (op : Op)
    (h : op ∈ identityOps uid gid euid egid) : op.isMountOp = false := by
  simp only [identityOps, List.mem_cons, List.mem_singleton, List.not_mem_nil, or_false] at h
  rcases h with rfl | rfl | rfl | rfl | rfl | rfl | rfl | rfl | rfl | rfl | rfl | rfl <;> rfl

theorem initOps_kinds (a : Launch) (op : Op) (h : op ∈ initOps a) :
    op ≠ Op.fork ∧ (∀ t, op ≠ Op.umount t) ∧ (∀ f v, op ≠ Op.execvp f v) ∧
      (∀ n, op ≠ Op.waitpid n) := by
  simp only [initOps, devMount, userMount, List.mem_append, List.mem_cons, List.mem_singleton,
    List.not_mem_nil, or_false, List.mem_map] at h
  rcases h with (((h | h) | h) | h) | h
  · rcases h with rfl | rfl | rfl <;> simp
  · obtain ⟨d, _, rfl⟩ := h
    simp
  · rcases h with rfl | rfl | rfl | rfl | rfl | rfl <;> simp
  · obtain ⟨d, _, rfl⟩ := h
    simp
  · rcases h with rfl | rfl <;> simp

theorem main_workload_trace (o : Oracle) (env : Env) (a : Launch) :
    (main_workload o env a).1.trace = [.execvp (a.process_args.headD "") a.process_args] := by
  unfold main_workload call
  cases o.sys .workload ([] : Trace).length <;> rfl

/-! ## Lemmas on strings and paths -/

theorem snprintf_of_lt (n : Nat) (s : String) (h : s.length < n) : snprintf n s = s := by
  unfold snprintf
  rw [List.take_of_length_le]
  have : s.data.length = s.length := rfl
  omega

theorem snprintf_length_le (n : Nat) (s : String) : (snprintf n s).length ≤ n - 1 := by
  unfold snprintf
  show (s.data.take (n - 1)).length ≤ n - 1
  simp

theorem scan_fst (c : Char) (l : List Char) : (scan c l).1 = l.takeWhile (fun x => x ≠ c) := by
  induction l with
  | nil => rfl
  | cons x xs ih =>
    by_cases h : x = c
    · simp [scan, h]
    · simp [scan, h, ih]

theorem scan_snd (c : Char) (l : List Char) : (scan c l).2 = l.dropWhile (fun x => x ≠ c) := by
  induction l with
  | nil => rfl
  | cons x xs ih =>
    by_cases h : x = c
    · simp [scan, h]
    · simp [scan, h, ih]

theorem scan_append (c : Char) (l : List Char) : (scan c l).1 ++ (scan c l).2 = l := by
  rw [scan_fst, scan_snd, List.takeWhile_append_dropWhile]

theorem scan_fst_not_mem (c : Char) (l : List Char) : c ∉ (scan c l).1 := by
  induction l with
  | nil => simp [scan]
  | cons x xs ih =>
    by_cases h : x = c
    · simp [scan, h]
    · simp [scan, h, ih, Ne.symm h]

theorem scan_snd_cases (c : Char) (l : List Char) :
    (scan c l).2 = [] ∨ ∃ t, (scan c l).2 = c :: t := by
  induction l with
  | nil => exact Or.inl rfl
  | cons x xs ih =>
    by_cases h : x = c
    · exact Or.inr ⟨xs, by simp [scan, h]⟩
    · simpa [scan, h] using ih

theorem scan_split (c : Char) (l t : List Char) (h : c ∉ l) : scan c (l ++ c :: t) = (l, c :: t) := by
  induction l with
  | nil => simp [scan]
  | cons x xs ih =>
    simp only [List.mem_cons, not_or] at h
    have hx : x ≠ c := fun e => h.1 e.symm
    simp [scan, hx, ih h.2]

theorem hasSep_iff (c : Char) (s : String) : hasSep c s = true ↔ c ∈ s.data := by
  unfold hasSep
  constructor
  · intro h
    rcases scan_snd_cases c s.data with h0 | ⟨t, ht⟩
    · simp [h0] at h
    · have := scan_append c s.data
      rw [ht] at this
      rw [← this]
      simp
  · intro h
    rcases scan_snd_cases c s.data with h0 | ⟨t, ht⟩
    · have := scan_append c s.data
      rw [h0, List.append_nil] at this
      rw [← this] at h
      exact absurd h (scan_fst_not_mem c s.data)
    · simp [ht]

theorem before_bindEntry (b : String × String) (h : Char.ofNat 58 ∉ b.1.data) :
    before (Char.ofNat 58) (bindEntry b) = b.1 := by
  have hd : (bindEntry b).data = b.1.data ++ Char.ofNat 58 :: b.2.data := by
    simp [bindEntry, String.data_append]
  unfold before
  rw [hd, scan_split _ _ _ h]

theorem after_bindEntry (b : String × String) (h : Char.ofNat 58 ∉ b.1.data) :
    after (Char.ofNat 58) (bindEntry b) = b.2 := by
  have hd : (bindEntry b).data = b.1.data ++ Char.ofNat 58 :: b.2.data := by
    simp [bindEntry, String.data_append]
  unfold after
  rw [hd, scan_split _ _ _ h]
  rfl

/-- A path made of the root and a suffix of at most 16 characters fits the
buffer. -/
theorem fits1 (root suf : String) (h : root.length + 16 < PATH_MAX) (hs : suf.length ≤ 16) :
    snprintf PATH_MAX (root ++ suf) = root ++ suf := by
  apply snprintf_of_lt
  rw [String.length_append]
  omega

theorem fits2 (root s1 s2 : String) (h : root.length + 16 < PATH_MAX)
    (hs : s1.length + s2.length ≤ 16) :
    snprintf PATH_MAX (root ++ s1 ++ s2) = root ++ s1 ++ s2 := by
  apply snprintf_of_lt
  rw [String.length_append, String.length_append]
  omega

theorem initOps_length (a : Launch) : (initOps a).length = 17 + a.mounts.length := by
  simp [initOps, dev_overlays]
  omega

/-- When every path fits its buffer, the calls of the namespace-init process
up to `chdir` are those of the specification. -/
theorem initOps_eq_spec (a : Launch) (binds : List (String × String))
    (hb : a.mounts = binds.map bindEntry)
    (hsrc : ∀ b, b ∈ binds → Char.ofNat 58 ∉ b.1.data)
    (hroot : a.rootfs.length + 16 < PATH_MAX)
    (hfit : ∀ b, b ∈ binds → a.rootfs.length + 1 + b.2.length < PATH_MAX) :
    initOps a =
      [.unshare CLONE_NEWNS] ++ specMounts a.rootfs a.rw_root binds ++
        [.chroot a.rootfs, .chdir "/"] := by
  have hdev : ∀ d, d ∈ dev_overlays →
      devMount a.rootfs d =
        Op.mount (some ("/dev/" ++ d)) (a.rootfs ++ "/dev/" ++ d) none MS_BIND := by
    intro d hd
    simp only [dev_overlays, List.mem_cons, List.mem_singleton, List.not_mem_nil, or_false] at hd
    unfold devMount
    rcases hd with rfl | rfl | rfl | rfl | rfl | rfl <;>
      rw [snprintf_of_lt _ _ (by decide), fits2 _ _ _ hroot (by decide)]
  have huser : ∀ b, b ∈ binds →
      userMount a.rootfs (bindEntry b) =
        Op.mount (some b.1) (a.rootfs ++ "/" ++ b.2) none (MS_BIND ||| MS_REC) := by
    intro b hbm
    unfold userMount
    rw [before_bindEntry b (hsrc b hbm), after_bindEntry b (hsrc b hbm), snprintf_of_lt]
    rw [String.length_append, String.length_append]
    have h1 : ("/" : String).length = 1 := by decide
    have := hfit b hbm
    omega
  have hflags : (if !a.rw_root then MS_REMOUNT ||| MS_BIND ||| MS_NOSUID ||| MS_NODEV ||| MS_RDONLY
        else MS_REMOUNT ||| MS_BIND ||| MS_NOSUID ||| MS_NODEV) =
      MS_REMOUNT ||| MS_BIND ||| MS_NOSUID ||| MS_NODEV ||| (if a.rw_root then 0 else MS_RDONLY) := by
    cases a.rw_root <;> decide
  have hmap1 : dev_overlays.map (devMount a.rootfs) =
      ["tty", "null", "zero", "full", "random", "urandom"].map
        (fun n => Op.mount (some ("/dev/" ++ n)) (a.rootfs ++ "/dev/" ++ n) none MS_BIND) :=
    List.map_congr_left hdev
  have hmap2 : a.mounts.map (userMount a.rootfs) =
      binds.map (fun b => Op.mount (some b.1) (a.rootfs ++ "/" ++ b.2) none (MS_BIND ||| MS_REC)) := by
    rw [hb, List.map_map]
    exact List.map_congr_left huser
  unfold initOps specMounts
  rw [hmap1, hmap2, hflags, fits1 _ "/etc/resolv.conf" hroot (by decide),
    fits1 _ "/dev/pts" hroot (by decide), fits1 _ "/dev/shm" hroot (by decide),
    fits1 _ "/run" hroot (by decide), fits1 _ "/tmp" hroot (by decide),
    fits1 _ "/proc" hroot (by decide)]
  simp

/-! ## Lemmas on argument processing -/

theorem consumed_lift {st st1 st2 : Args} {rest : List String} (c : List String)
    (ih : Consumed st1 rest st2) (hp : st1.process_args = st.process_args)
    (hu : st1.uid = st.uid ∨ "-u" ∈ c ∨ "--uid" ∈ c)
    (hg : st1.gid = st.gid ∨ "-g" ∈ c ∨ "--gid" ∈ c)
    (hm : ∀ m, m ∈ st1.mounts → m ∈ st.mounts ∨ hasSep (Char.ofNat 58) m = true)
    (he : ∀ e, e ∈ st1.envs → e ∈ st.envs ∨ hasSep (Char.ofNat 61) e = true) :
    Consumed st (c ++ rest) st2 := by
  obtain ⟨pre, hsplit, hu1, hg1, hm1, he1⟩ := ih
  refine ⟨c ++ pre, ?_, ?_, ?_, ?_, ?_⟩
  · rcases hsplit with ⟨rfl, h2⟩ | ⟨cmd, rfl, h2, h3⟩
    · exact Or.inl ⟨rfl, h2.trans hp⟩
    · exact Or.inr ⟨cmd, by simp, h2, h3⟩
  · simp only [List.mem_append]
    rcases hu1 with h | h | h
    · rcases hu with h2 | h2 | h2
      · exact Or.inl (h.trans h2)
      · exact Or.inr (Or.inl (Or.inl h2))
      · exact Or.inr (Or.inr (Or.inl h2))
    · exact Or.inr (Or.inl (Or.inr h))
    · exact Or.inr (Or.inr (Or.inr h))
  · simp only [List.mem_append]
    rcases hg1 with h | h | h
    · rcases hg with h2 | h2 | h2
      · exact Or.inl (h.trans h2)
      · exact Or.inr (Or.inl (Or.inl h2))
      · exact Or.inr (Or.inr (Or.inl h2))
    · exact Or.inr (Or.inl (Or.inr h))
    · exact Or.inr (Or.inr (Or.inr h))
  · intro m hmem
    rcases hm1 m hmem with h | h
    · exact hm m h
    · exact Or.inr h
  · intro e hmem
    rcases he1 e hmem with h | h
    · exact he e h
    · exact Or.inr h

theorem parseLoop_consumed (o : Oracle) (st : Args) (l : List String) :
    ∀ st2, parseLoop o st l = some st2 → Consumed st l st2 := by
  induction st, l using parseLoop.induct o <;> intro st2 h <;> rw [parseLoop.eq_def] at h <;>
    simp [*] at h
  case case1 =>
    subst h
    exact ⟨[], Or.inl ⟨rfl, rfl⟩, Or.inl rfl, Or.inl rfl, fun _ hm => Or.inl hm,
      fun _ hm => Or.inl hm⟩
  case case3 st v _ v1 x rest ih =>
    exact consumed_lift [v, v1, "rw"] (ih _ h) rfl (Or.inl rfl) (Or.inl rfl)
      (fun _ hm => Or.inl hm) (fun _ hm => Or.inl hm)
  case case4 st v _ v1 w x rest _ ih =>
    exact consumed_lift [v, v1] (ih _ h) rfl (Or.inl rfl) (Or.inl rfl)
      (fun _ hm => Or.inl hm) (fun _ hm => Or.inl hm)
  case case5 st v _ v1 w ih =>
    exact consumed_lift [v, v1] (ih _ h) rfl (Or.inl rfl) (Or.inl rfl)
      (fun _ hm => Or.inl hm) (fun _ hm => Or.inl hm)
  case case6 st v _ v1 ih =>
    exact consumed_lift [v, v1] (ih _ h) rfl (Or.inl rfl) (Or.inl rfl)
      (fun _ hm => Or.inl hm) (fun _ hm => Or.inl hm)
  case case9 st v _ hu v1 rest n _ ih =>
    refine consumed_lift [v, v1] (ih _ h) rfl (Or.inr ?_) (Or.inl rfl)
      (fun _ hm => Or.inl hm) (fun _ hm => Or.inl hm)
    rcases hu with rfl | rfl <;> simp
  case case12 st v _ _ hg v1 rest n _ ih =>
    refine consumed_lift [v, v1] (ih _ h) rfl (Or.inl rfl) (Or.inr ?_)
      (fun _ hm => Or.inl hm) (fun _ hm => Or.inl hm)
    rcases hg with rfl | rfl <;> simp
  case case16 st v _ _ _ _ v1 rest _ hsep ih =>
    refine consumed_lift [v, v1] (ih _ h) rfl (Or.inl rfl) (Or.inl rfl)
      (fun m hm => ?_) (fun _ hm => Or.inl hm)
    simp only [List.mem_append, List.mem_singleton] at hm
    rcases hm with hm | rfl
    · exact Or.inl hm
    · exact Or.inr (by simpa using hsep)
  case case20 st v _ _ _ _ _ v1 rest _ hsep ih =>
    refine consumed_lift [v, v1] (ih _ h) rfl (Or.inl rfl) (Or.inl rfl)
      (fun _ hm => Or.inl hm) (fun e hm => ?_)
    simp only [List.mem_append, List.mem_singleton] at hm
    rcases hm with hm | rfl
    · exact Or.inl hm
    · exact Or.inr (by simpa using hsep)
  case case22 st c cs _ _ _ _ _ =>
    subst h
    exact ⟨[], Or.inr ⟨c :: cs, rfl, by simp, rfl⟩, Or.inl rfl, Or.inl rfl,
      fun _ hm => Or.inl hm, fun _ hm => Or.inl hm⟩

theorem parseLoop_congr (o o2 : Oracle) (hm : o.reallocMounts = o2.reallocMounts)
    (he : o.reallocEnvs = o2.reallocEnvs) (st : Args) (l : List String) :
    parseLoop o st l = parseLoop o2 st l := by
  induction st, l using parseLoop.induct o <;>
    (rw [parseLoop.eq_def, parseLoop.eq_def o2] <;> simp_all)

theorem validate_congr (o o2 : Oracle) (hm : o.reallocMounts = o2.reallocMounts)
    (he : o.reallocEnvs = o2.reallocEnvs) (argv : List String) :
    validate o argv = validate o2 argv := by
  simp only [validate, parseArgs, parseLoop_congr o o2 hm he]

theorem hasSep_bindEntry (b : String × String) : hasSep (Char.ofNat 58) (bindEntry b) = true := by
  rw [hasSep_iff]
  simp [bindEntry, String.data_append]

theorem validate_long : validate (calm (some 0)) argvLong = some launchLong := by
  have h1 : sscanf_d "1000" = some 1000 := by decide
  have h2 : hasSep (Char.ofNat 58) (bindEntry ("/s", longTarget)) = true := hasSep_bindEntry _
  simp [validate, parseArgs, argvLong, parseLoop, h1, h2, check, launchLong, calm, grow]

/-- No mount point built by `snprintf` is longer than the buffer allows. -/
theorem initOps_targetLen (a : Launch) (op : Op) (h : op ∈ initOps a) :
    op.targetLen ≤ max (PATH_MAX - 1) a.rootfs.length := by
  simp only [initOps, devMount, userMount, List.mem_append, List.mem_cons, List.mem_singleton,
    List.not_mem_nil, or_false, List.mem_map] at h
  have hs : ∀ s, (snprintf PATH_MAX s).length ≤ max (PATH_MAX - 1) a.rootfs.length :=
    fun s => le_trans (snprintf_length_le _ s) (le_max_left _ _)
  rcases h with (((h | h) | h) | h) | h
  · rcases h with rfl | rfl | rfl <;> simp [Op.targetLen]
  · obtain ⟨d, _, rfl⟩ := h
    exact hs _
  · rcases h with rfl | rfl | rfl | rfl | rfl | rfl <;> exact hs _
  · obtain ⟨d, _, rfl⟩ := h
    exact hs _
  · rcases h with rfl | rfl <;> simp [Op.targetLen]

theorem check_some (st : Args) (a : Launch) (h : check st = some a) :
    st.process_args = some a.process_args ∧ st.rootfs = some a.rootfs ∧ st.uid = a.uid ∧
      st.gid = a.gid ∧ st.mounts = a.mounts ∧ st.envs = a.envs ∧ st.uid ≠ -1 ∧ st.gid ≠ -1 := by
  unfold check at h
  cases hr : st.rootfs with
  | none => simp [hr] at h
  | some r =>
    cases hpa : st.process_args with
    | none => simp [hr, hpa] at h
    | some c =>
      simp only [hr, hpa] at h
      by_cases hid : st.uid = -1 ∨ st.gid = -1
      · simp [hid] at h
      · simp only [hid, if_false, Option.some.injEq] at h
        subst h
        simp only [not_or] at hid
        exact ⟨rfl, rfl, rfl, rfl, rfl, rfl, hid.1, hid.2⟩

/-- What every accepted argument vector looks like. -/
theorem validate_some (o : Oracle) (argv : List String) (a : Launch)
    (h : validate o argv = some a) :
    ∃ st pre, parseArgs o argv = some st ∧ check st = some a ∧
      argv.drop 1 = pre ++ "--" :: a.process_args ∧ a.process_args ≠ [] ∧
      ("-u" ∈ pre ∨ "--uid" ∈ pre) ∧ ("-g" ∈ pre ∨ "--gid" ∈ pre) ∧
      (∀ m, m ∈ a.mounts → hasSep (Char.ofNat 58) m = true) ∧
      (∀ e, e ∈ a.envs → hasSep (Char.ofNat 61) e = true) := by
  unfold validate at h
  cases hp : parseArgs o argv with
  | none => simp [hp] at h
  | some st =>
    simp only [hp, Option.some_bind] at h
    obtain ⟨h1, _, h3, h4, h5, h6, h7, h8⟩ := check_some st a h
    obtain ⟨pre, hsplit, hu, hg, hm, he⟩ := parseLoop_consumed o {} (argv.drop 1) st hp
    refine ⟨st, pre, rfl, h, ?_, ?_, ?_, ?_, ?_, ?_⟩
    · rcases hsplit with ⟨_, h2⟩ | ⟨cmd, hl, _, hc⟩
      · rw [h1] at h2
        cases h2
      · rw [h1] at hc
        cases hc
        exact hl
    · rcases hsplit with ⟨_, h2⟩ | ⟨cmd, _, hne, hc⟩
      · rw [h1] at h2
        cases h2
      · rw [h1] at hc
        cases hc
        exact hne
    · rcases hu with h | h
      · exact absurd h h7
      · exact h
    · rcases hg with h | h
      · exact absurd h h8
      · exact h
    · intro m hmem
      rw [← h5] at hmem
      rcases hm m hmem with h | h
      · simp at h
      · exact h
    · intro e hmem
      rw [← h6] at hmem
      rcases he e hmem with h | h
      · simp at h
      · exact h

theorem entry_split (c : Char) (s : String) (h : hasSep c s = true) :
    s.data = (before c s).data ++ c :: (after c s).data ∧ c ∉ (before c s).data := by
  have hmem := (hasSep_iff c s).1 h
  unfold before after
  rcases scan_snd_cases c s.data with h0 | ⟨t, ht⟩
  · have := scan_append c s.data
    rw [h0, List.append_nil] at this
    rw [← this] at hmem
    exact absurd hmem (scan_fst_not_mem c s.data)
  · refine ⟨?_, scan_fst_not_mem c s.data⟩
    have := scan_append c s.data
    rw [ht] at this
    simp only [ht, List.drop_succ_cons, List.drop_zero]
    exact this.symm

theorem parseLoop_mount_rejected (o : Oracle) (st : Args) (v : String) (rest : List String)
    (h : Char.ofNat 58 ∉ v.data) :
    parseLoop o st ("-m" :: v :: rest) = none ∧ parseLoop o st ("--mount" :: v :: rest) = none := by
  have hs : hasSep (Char.ofNat 58) v = false := by
    cases hh : hasSep (Char.ofNat 58) v
    · rfl
    · exact absurd ((hasSep_iff _ _).1 hh) h
  constructor <;> (rw [parseLoop.eq_def]; simp [hs])

/-! ## Lemmas on the environment -/

theorem before_eq_entryKey (e : String) : before (Char.ofNat 61) e = entryKey e := by
  unfold before entryKey
  rw [scan_fst]

theorem after_eq_entryValue (e : String) : after (Char.ofNat 61) e = entryValue e := by
  unfold after entryValue
  rw [scan_snd]

theorem entryKey_no_eq (e : String) : Char.ofNat 61 ∉ (entryKey e).data := by
  rw [← before_eq_entryKey]
  exact scan_fst_not_mem _ _

theorem setenv_ne (name value : String) (env : Env) (x : String) (h : x ≠ name) :
    setenv name value env x = env x := by
  unfold setenv
  split
  · rfl
  · simp [h]

theorem setenv_same (name value : String) (env : Env) (h1 : name ≠ "")
    (h2 : Char.ofNat 61 ∉ name.data) : setenv name value env name = some value := by
  have h3 : name.data.isEmpty = false := by
    cases hd : name.data with
    | nil => exact absurd (String.ext hd) h1
    | cons c cs => rfl
  simp [setenv, h2, h3]

theorem envLoop_append (es : List String) (e : String) (env : Env) :
    envLoop (es ++ [e]) env =
      setenv (before (Char.ofNat 61) e) (after (Char.ofNat 61) e) (envLoop es env) := by
  induction es generalizing env with
  | nil => rfl
  | cons x xs ih => exact ih _

theorem envLoop_unnamed (es : List String) (env : Env) (x : String)
    (h : ∀ e, e ∈ es → entryKey e ≠ x) : envLoop es env x = env x := by
  induction es generalizing env with
  | nil => rfl
  | cons e es ih =>
    simp only [envLoop]
    rw [ih _ (fun e2 h2 => h e2 (List.mem_cons_of_mem _ h2)), before_eq_entryKey,
      setenv_ne _ _ _ _ (fun hx => h e (List.mem_cons_self _ _) hx.symm)]

theorem envLoop_named (es : List String) (env : Env) (x : String) (hx : x ≠ "")
    (h : ∃ e, e ∈ es ∧ entryKey e = x) : envLoop es env x = lastValue es x := by
  induction es using List.reverseRecOn with
  | nil =>
    obtain ⟨e, he, _⟩ := h
    cases he
  | append_singleton es e ih =>
    rw [envLoop_append, before_eq_entryKey, after_eq_entryValue]
    by_cases hk : entryKey e = x
    · subst hk
      rw [setenv_same _ _ _ hx (entryKey_no_eq e)]
      simp [lastValue, List.filter_append]
    · have hex : ∃ e2, e2 ∈ es ∧ entryKey e2 = x := by
        obtain ⟨e2, he2, hk2⟩ := h
        rw [List.mem_append, List.mem_singleton] at he2
        rcases he2 with he2 | rfl
        · exact ⟨e2, he2, hk2⟩
        · exact absurd hk2 hk
      rw [setenv_ne _ _ _ _ (fun hx2 => hk hx2.symm), ih hex]
      simp [lastValue, List.filter_append, hk]

theorem main_workload_env (o : Oracle) (env : Env) (a : Launch) :
    (main_workload o env a).2 = envLoop a.envs (setenv "PATH" DEFAULT_PATH env) := by
  unfold main_workload call
  cases o.sys .workload ([] : Trace).length <;> rfl

theorem launch_environ (o : Oracle) (env : Env) (euid egid : Int) (a : Launch) (E : Env)
    (h : (launch o env euid egid a).environ = some E) :
    E = envLoop a.envs (setenv "PATH" DEFAULT_PATH env) := by
  rcases launch_cases o env euid egid a with ⟨tr, _, _, he⟩ | ⟨_, _, he⟩ | ⟨_, _, he⟩
  · rw [he] at h
    cases h
  · rw [he] at h
    rcases main_init_cases o env a with ⟨tr, _, hi⟩ | ⟨_, _, hi⟩ | ⟨_, _, hi⟩
    · rw [hi] at h
      cases h
    · rw [hi] at h
      simp only [Option.map_some', Option.some.injEq] at h
      rw [← h, main_workload_env]
    · rw [hi] at h
      cases h
  · rw [he] at h
    cases h

/-! ## The properties of the specification, C1 to C10 -/

/-- C1: in a valid launch in which every call of every process succeeds and
the command exits normally with code `c` (wait status `c * 256`), the workload
ends with that status, the namespace-init process exits with code `c` and the
outermost process exits with code `c`. -/
theorem C1_exit_code_forwarded (o : Oracle) (env : Env) (euid egid : Int) (argv : List String)
    (a : Launch) (c : Nat) (hvalid : validate o argv = some a)
    (hall : ∀ role i, o.sys role i = true) (hc : c < 256) (hcmd : o.command = some (c * 256)) :
    (∃ w, (main o env euid egid argv).workload = some w ∧ w.status = some (c * 256)) ∧
      (∃ p, (main o env euid egid argv).init = some p ∧ p.status = some (c * 256) ∧
        p.exitCode = some c) ∧
      (main o env euid egid argv).reporter.status = some (c * 256) ∧
      (main o env euid egid argv).reporter.exitCode = some c := by
  obtain ⟨h1, h2, h3⟩ := launch_all_ok o env euid egid a hall
  have e1 : exitStatus (WEXITSTATUS (c * 256) : Nat) = c * 256 := by
    rw [WEXITSTATUS_exited c hc, exitStatus_natCast c hc]
  rw [main_of_validate env euid egid hvalid, h1, h2, h3, hcmd]
  refine ⟨⟨_, rfl, rfl⟩, ⟨_, rfl, ?_, ?_⟩, ?_, ?_⟩
  · simp [e1]
  · simp [Proc.exitCode, e1, WEXITSTATUS_exited c hc, exitStatus_natCast c hc]
  · simp [e1, WEXITSTATUS_exited c hc, exitStatus_natCast c hc]
  · simp [Proc.exitCode, e1, WEXITSTATUS_exited c hc, exitStatus_natCast c hc]

/-- Witness of C1: `/bin/false` exits with code 1, and so does the program. -/
theorem C1_exit_code_forwarded_witness :
    (main (calm (some 256)) noEnv 1000 1000 argvFalse).reporter.exitCode = some 1 :=
  (C1_exit_code_forwarded (calm (some 256)) noEnv 1000 1000 argvFalse launchFalse 1 (by decide)
    (fun _ _ => rfl) (by decide) rfl).2.2.2

/-- C2: whenever a process of a run hits a failure (one of its tested calls
fails: an unshare, an open or write of a mapping file, setuid, setgid, a mount,
chroot, chdir, execvp or waitpid), that process returns 1 from `main`, every
process above it in the supervision chain does too, and the exit code of the
outermost process is 1. -/
theorem C2_failure_exits_one (o : Oracle) (env : Env) (euid egid : Int) (argv : List String)
    (role : Role) (p : Proc) (hp : (main o env euid egid argv).proc role = some p)
    (hfail : hitFailure (o.sys role) p.trace) :
    p.status = some (exitStatus 1) ∧
      (role = .workload →
        ∃ q, (main o env euid egid argv).init = some q ∧ q.status = some (exitStatus 1)) ∧
      (main o env euid egid argv).reporter.status = some (exitStatus 1) ∧
      (main o env euid egid argv).reporter.exitCode = some 1 := by
  have key : p.status = some (exitStatus 1) ∧
      (role = .workload →
        ∃ q, (main o env euid egid argv).init = some q ∧ q.status = some (exitStatus 1)) ∧
      (main o env euid egid argv).reporter.status = some (exitStatus 1) := by
    unfold main at hp ⊢
    cases hv : validate o argv with
    | none =>
      simp only [hv] at hp ⊢
      cases role with
      | reporter =>
        simp only [Run.proc, Option.some.injEq] at hp
        subst hp
        exact ⟨rfl, (fun h => by cases h), trivial⟩
      | init => simp [Run.proc] at hp
      | workload => simp [Run.proc] at hp
    | some a =>
      simp only [hv] at hp ⊢
      rcases launch_cases o env euid egid a with ⟨tr, _, _, he⟩ | ⟨hok, _, he⟩ | ⟨hok, _, he⟩
      · rw [he] at hp ⊢
        cases role with
        | reporter =>
          simp only [Run.proc, Option.some.injEq] at hp
          subst hp
          exact ⟨rfl, (fun h => by cases h), rfl⟩
        | init => simp [Run.proc] at hp
        | workload => simp [Run.proc] at hp
      · rw [he] at hp ⊢
        have hpre := checked_before_wait (o.sys .reporter) (identityOps a.uid a.gid euid egid)
          (fun i op hget hchk => hok i (identityOps_checked _ _ _ _ i op hget hchk))
        cases role with
        | reporter =>
          simp only [Run.proc, Option.some.injEq] at hp
          subst hp
          have := waitForward_hit o .reporter _ _ _ hpre hfail
          exact ⟨this, (fun h => by cases h), this⟩
        | init =>
          simp only [Run.proc, Option.some.injEq] at hp
          subst hp
          have hst := main_init_hit o env a hfail
          refine ⟨hst, (fun h => by cases h), ?_⟩
          simp only [hst]
          exact waitForward_status_one o .reporter _
        | workload =>
          simp only [Run.proc] at hp
          obtain ⟨h1, h2⟩ := main_init_workload_hit o env a p hp hfail
          refine ⟨h1, fun _ => ⟨_, rfl, h2⟩, ?_⟩
          simp only [h2]
          exact waitForward_status_one o .reporter _
      · rw [he] at hp ⊢
        have hpre := checked_before_wait (o.sys .reporter) (identityOps a.uid a.gid euid egid)
          (fun i op hget hchk => hok i (identityOps_checked _ _ _ _ i op hget hchk))
        cases role with
        | reporter =>
          simp only [Run.proc, Option.some.injEq] at hp
          subst hp
          have := waitForward_hit o .reporter _ _ _ hpre hfail
          exact ⟨this, (fun h => by cases h), this⟩
        | init => simp [Run.proc] at hp
        | workload => simp [Run.proc] at hp
  refine ⟨key.1, key.2.1, key.2.2, ?_⟩
  rw [Proc.exitCode, key.2.2]
  decide

/-- Witness of C2: the mount of `/dev/null` (the fifth call of the
namespace-init process) fails. -/
theorem C2_failure_exits_one_witness :
    (main (failingAt .init 4 (some 0)) noEnv 1000 1000 argvFalse).reporter.exitCode = some 1 :=
  (C2_failure_exits_one (failingAt .init 4 (some 0)) noEnv 1000 1000 argvFalse .init
    { trace := (initOps launchFalse).take 5, status := some 256 } (by decide)
    ⟨4, devMount "/r" "null", by decide, by decide, by decide⟩).2.2.2

/-- C3 (amended): after validation, when the root path plus 16 characters and
every root path + "/" + target are shorter than `PATH_MAX`, and the calls of
the namespace-init process up to `chdir` all succeed, its calls are exactly:
unshare of the mount namespace; the mount sequence of the specification (bind
of the root onto itself, remount with REMOUNT|BIND|NOSUID|NODEV plus RDONLY
iff the root is not writable, the six device binds, the resolver bind, devpts,
tmpfs on dev/shm, run and tmp, proc, then the user binds in command-line order
with BIND|REC); chroot to the root; chdir to "/"; fork; waitpid. -/
theorem C3_mount_sequence (o : Oracle) (env : Env) (euid egid : Int) (argv : List String)
    (a : Launch) (binds : List (String × String)) (p : Proc)
    (hv : validate o argv = some a) (hb : a.mounts = binds.map bindEntry)
    (hsrc : ∀ b, b ∈ binds → Char.ofNat 58 ∉ b.1.data)
    (hroot : a.rootfs.length + 16 < PATH_MAX)
    (hfit : ∀ b, b ∈ binds → a.rootfs.length + 1 + b.2.length < PATH_MAX)
    (hp : (main o env euid egid argv).init = some p)
    (hok : ∀ i, i < 17 + binds.length → o.sys .init i = true) :
    ∃ pid, p.trace =
      [.unshare CLONE_NEWNS] ++ specMounts a.rootfs a.rw_root binds ++
        [.chroot a.rootfs, .chdir "/", .fork, .waitpid pid] := by
  rw [main_of_validate env euid egid hv] at hp
  have hlen : (initOps a).length = 17 + binds.length := by
    rw [initOps_length, hb, List.length_map]
  rcases launch_cases o env euid egid a with ⟨tr, _, _, he⟩ | ⟨_, _, he⟩ | ⟨_, _, he⟩
  · rw [he] at hp
    cases hp
  · rw [he] at hp
    simp only [Option.some.injEq] at hp
    subst hp
    refine ⟨if o.sys .init (initOps a).length then (o.pid .init : Int) else -1, ?_⟩
    rw [main_init_of_setup_ok o env a (fun i hi => hok i (hlen ▸ hi)),
      initOps_eq_spec a binds hb hsrc hroot hfit]
    simp only [List.append_assoc, List.cons_append, List.nil_append]
  · rw [he] at hp
    cases hp

/-- Witness of C3: a writable root and one bind mount. -/
theorem C3_mount_sequence_witness :
    ∃ pid, (initOps launchData ++ [Op.fork, Op.waitpid 7]) =
      [.unshare CLONE_NEWNS] ++ specMounts "/r" true [("/host/data", "data")] ++
        [.chroot "/r", .chdir "/", .fork, .waitpid pid] :=
  C3_mount_sequence (calm (some 0)) noEnv 1000 1000 argvData launchData [("/host/data", "data")]
    { trace := initOps launchData ++ [Op.fork, Op.waitpid 7], status := some 0 }
    (by decide) (by decide) (by decide) (by decide) (by decide) (by decide) (fun _ _ => rfl)

/-- Counterexample to C3 as stated: with a target of 4096 characters every
call succeeds, yet the calls of the namespace-init process are not the
sequence of the specification, because the mount point of the user bind is cut
to `PATH_MAX - 1` characters. -/
theorem C3_long_target_truncated :
    ∃ p, (main (calm (some 0)) noEnv 1000 1000 argvLong).init = some p ∧
      ∀ pid, p.trace ≠
        [.unshare CLONE_NEWNS] ++ specMounts "/r" false [("/s", longTarget)] ++
          [.chroot "/r", .chdir "/", .fork, .waitpid pid] := by
  rw [main_of_validate noEnv 1000 1000 validate_long]
  obtain ⟨_, h2, _⟩ := launch_all_ok (calm (some 0)) noEnv 1000 1000 launchLong (fun _ _ => rfl)
  refine ⟨_, h2, ?_⟩
  intro pid heq
  have hmem : Op.mount (some "/s") ("/r" ++ "/" ++ longTarget) none (MS_BIND ||| MS_REC) ∈
      initOps launchLong ++ [Op.fork, Op.waitpid ((calm (some 0)).pid Role.init)] := by
    have : (initOps launchLong ++ [Op.fork, Op.waitpid ((calm (some 0)).pid Role.init)]) =
        [.unshare CLONE_NEWNS] ++ specMounts "/r" false [("/s", longTarget)] ++
          [.chroot "/r", .chdir "/", .fork, .waitpid pid] := heq
    rw [this]
    simp [specMounts]
  rw [List.mem_append] at hmem
  rcases hmem with hmem | hmem
  · have hle := initOps_targetLen launchLong _ hmem
    have h1 : (Op.mount (some "/s") ("/r" ++ "/" ++ longTarget) none
        (MS_BIND ||| MS_REC)).targetLen = 4099 := by
      simp only [Op.targetLen, String.length_append]
      have e1 : ("/r" : String).length = 2 := by decide
      have e2 : ("/" : String).length = 1 := by decide
      have e3 : longTarget.length = 4096 := by
        show (List.replicate 4096 'a').length = 4096
        exact List.length_replicate _ _
      omega
    have h2 : max (PATH_MAX - 1) launchLong.rootfs.length = 4095 := by decide
    omega
  · simp at hmem

/-- C4: after validation, whatever the operating system answers, the calls
of the outermost process are an initial part of the fixed sequence unshare
(new user and pid namespace), open/write/close of `/proc/self/setgroups`
("deny"), of `uid_map`, of `gid_map`, setuid, setgid, fork, waitpid; a fork is
therefore preceded by all of them, and when any tested call of the identity
transition fails there is no fork, no child process and no mount-namespace or
mount operation. -/
theorem C4_identity_before_fork (o : Oracle) (env : Env) (euid egid : Int) (argv : List String)
    (a : Launch) (hv : validate o argv = some a) :
    (∃ pid, (main o env euid egid argv).reporter.trace <+:
        identityOps a.uid a.gid euid egid ++ [.fork, .waitpid pid]) ∧
      (Op.fork ∈ (main o env euid egid argv).reporter.trace →
        identityOps a.uid a.gid euid egid ++ [.fork] <+:
          (main o env euid egid argv).reporter.trace) ∧
      ((∃ i, i ∈ identityChecked ∧ o.sys .reporter i = false) →
        Op.fork ∉ (main o env euid egid argv).reporter.trace ∧
        (main o env euid egid argv).init = none ∧
        (main o env euid egid argv).workload = none ∧
        ∀ op, op ∈ (main o env euid egid argv).reporter.trace → op.isMountOp = false) := by
  rw [main_of_validate env euid egid hv]
  rcases launch_cases o env euid egid a with ⟨tr, hpre, hf, he⟩ | ⟨hok, _, he⟩ | ⟨hok, _, he⟩
  · rw [he]
    have hnf : Op.fork ∉ tr := fun h => identityOps_no_fork _ _ _ _ (hpre.subset h)
    refine ⟨⟨0, hpre.trans (List.prefix_append _ _)⟩, fun h => absurd h hnf, fun _ =>
      ⟨hnf, rfl, rfl, fun op hop => identityOps_no_mount _ _ _ _ op (hpre.subset hop)⟩⟩
  · rw [he]
    simp only [waitForward_trace]
    refine ⟨⟨(o.pid .reporter : Int), by simp⟩, fun _ => by simp, ?_⟩
    rintro ⟨i, hi, hfalse⟩
    rw [hok i hi] at hfalse
    cases hfalse
  · rw [he]
    simp only [waitForward_trace]
    refine ⟨⟨-1, by simp⟩, fun _ => by simp, ?_⟩
    rintro ⟨i, hi, hfalse⟩
    rw [hok i hi] at hfalse
    cases hfalse

/-- Witness of C4: the write to `/proc/self/uid_map` fails. -/
theorem C4_identity_before_fork_witness :
    Op.fork ∉ (main (failingAt .reporter 5 none) noEnv 1000 1000 argvFalse).reporter.trace ∧
      (main (failingAt .reporter 5 none) noEnv 1000 1000 argvFalse).init = none :=
  ⟨((C4_identity_before_fork (failingAt .reporter 5 none) noEnv 1000 1000 argvFalse launchFalse
      (by decide)).2.2 ⟨5, by decide, by decide⟩).1,
   ((C4_identity_before_fork (failingAt .reporter 5 none) noEnv 1000 1000 argvFalse launchFalse
      (by decide)).2.2 ⟨5, by decide, by decide⟩).2.1⟩

/-- C5: after validation, the workload exists (and execs the command) only if
the namespace-init process made all its calls up to `chdir` and all of them
succeeded; if the call at position `k` of that sequence is the first to fail,
the calls of the namespace-init process are exactly the first `k + 1` calls of
the sequence: nothing after position `k`, no fork, no exec, no unmount; the
process returns 1 and there is no workload. -/
theorem C5_abort_at_first_failure (o : Oracle) (env : Env) (euid egid : Int)
    (argv : List String) (a : Launch) (hv : validate o argv = some a) :
    (∀ w, (main o env euid egid argv).workload = some w →
        w.trace = [.execvp (a.process_args.headD "") a.process_args] ∧
        (∀ i, i < (initOps a).length → o.sys .init i = true) ∧
        ∃ p, (main o env euid egid argv).init = some p ∧ initOps a ++ [.fork] <+: p.trace) ∧
      (∀ p k, (main o env euid egid argv).init = some p → k < (initOps a).length →
        (∀ j, j < k → o.sys .init j = true) → o.sys .init k = false →
        p.trace = (initOps a).take (k + 1) ∧ p.status = some (exitStatus 1) ∧
        (main o env euid egid argv).workload = none ∧
        Op.fork ∉ p.trace ∧ (∀ t, Op.umount t ∉ p.trace) ∧ ∀ f v, Op.execvp f v ∉ p.trace) := by
  rw [main_of_validate env euid egid hv]
  constructor
  · intro w hw
    rcases launch_cases o env euid egid a with ⟨tr, _, _, he⟩ | ⟨_, _, he⟩ | ⟨_, _, he⟩
    · rw [he] at hw
      cases hw
    · rw [he] at hw ⊢
      rcases main_init_cases o env a with ⟨tr, _, hi⟩ | ⟨hok, _, hi⟩ | ⟨_, _, hi⟩
      · rw [hi] at hw
        cases hw
      · rw [hi] at hw ⊢
        simp only [Option.map_some', Option.some.injEq] at hw
        subst hw
        refine ⟨main_workload_trace o env a, hok, _, rfl, ?_⟩
        simp [waitForward_trace]
      · rw [hi] at hw
        cases hw
    · rw [he] at hw
      cases hw
  · intro p k hp hk hbefore hfail
    rcases launch_cases o env euid egid a with ⟨tr, _, _, he⟩ | ⟨_, _, he⟩ | ⟨_, _, he⟩
    · rw [he] at hp
      cases hp
    · rw [he] at hp ⊢
      simp only [Option.some.injEq] at hp
      subst hp
      rcases main_init_cases o env a with ⟨tr, hs, hi⟩ | ⟨hok, _, _⟩ | ⟨hok, _, _⟩
      · have hrun := runOps_fail_at (o.sys .init) (initOps a) [] k hk
          (fun j hj => by simpa using hbefore j hj) (by simpa using hfail)
        rw [← initSetup_eq, hs] at hrun
        simp only [List.nil_append, Except.error.injEq] at hrun
        subst hrun
        rw [hi]
        refine ⟨rfl, rfl, rfl, ?_, ?_, ?_⟩
        · exact fun h => (initOps_kinds a _ (List.mem_of_mem_take h)).1 rfl
        · exact fun t h => (initOps_kinds a _ (List.mem_of_mem_take h)).2.1 t rfl
        · exact fun f v h => (initOps_kinds a _ (List.mem_of_mem_take h)).2.2.1 f v rfl
      · rw [hok k hk] at hfail
        cases hfail
      · rw [hok k hk] at hfail
        cases hfail
    · rw [he] at hp
      cases hp

/-- Witness of C5: the mount of `proc` (position 14) fails; the namespace-init
process stops there and no workload is created. -/
theorem C5_abort_at_first_failure_witness :
    (main (failingAt .init 14 none) noEnv 1000 1000 argvFalse).workload = none :=
  ((C5_abort_at_first_failure (failingAt .init 14 none) noEnv 1000 1000 argvFalse launchFalse
    (by decide)).2 { trace := (initOps launchFalse).take 15, status := some 256 } 14 (by decide)
    (by decide) (by decide) (by decide)).2.2.1

/-- C6 (amended): the environment `E` with which the workload calls `execvp`
is such that every non-empty key that occurs in the list of overrides has the
value of the last entry with that key (key: text before the first `=`, value:
everything after it); `PATH` is the fixed default when no entry has key
`PATH`; every variable other than `PATH` that no entry names keeps its
inherited value. -/
theorem C6_environment_overrides (o : Oracle) (env : Env) (euid egid : Int)
    (argv : List String) (a : Launch) (E : Env) (hv : validate o argv = some a)
    (hE : (main o env euid egid argv).environ = some E) :
    (∀ k, k ≠ "" → (∃ e, e ∈ a.envs ∧ entryKey e = k) → E k = lastValue a.envs k) ∧
      ((∀ e, e ∈ a.envs → entryKey e ≠ "PATH") → E "PATH" = some DEFAULT_PATH) ∧
      (∀ x, x ≠ "PATH" → (∀ e, e ∈ a.envs → entryKey e ≠ x) → E x = env x) := by
  rw [main_of_validate env euid egid hv] at hE
  have hEq := launch_environ o env euid egid a E hE
  subst hEq
  refine ⟨fun k hk hex => envLoop_named _ _ k hk hex, fun hno => ?_, fun x hx hno => ?_⟩
  · rw [envLoop_unnamed _ _ _ hno]
    exact setenv_same _ _ _ (by decide) (by decide)
  · rw [envLoop_unnamed _ _ _ hno, setenv_ne _ _ _ _ hx]

/-- Witness of C6 (amended): a key given twice ends with the later value. -/
theorem C6_environment_overrides_witness :
    envLoop ["CC=gcc", "CC=clang"] (setenv "PATH" DEFAULT_PATH noEnv) "CC" = some "clang" :=
  ((C6_environment_overrides (calm (some 0)) noEnv 1000 1000
    ["rbrt", "-r", "/r", "-u", "1000", "-g", "1000", "-e", "CC=gcc", "-e", "CC=clang", "--",
      "/bin/true"]
    { rootfs := "/r", rw_root := false, uid := 1000, gid := 1000, mounts := [],
      envs := ["CC=gcc", "CC=clang"], process_args := ["/bin/true"] }
    (envLoop ["CC=gcc", "CC=clang"] (setenv "PATH" DEFAULT_PATH noEnv)) (by decide) rfl).1
    "CC" (by decide) ⟨"CC=gcc", by decide, by decide⟩).trans (by decide)

/-- Counterexample to C6 as stated: the entry `=foo` has the empty key, which
occurs in the list, yet the variable with the empty name is not set (`setenv`
rejects it); and with an entry `PATH=` followed by the default value, `PATH`
ends as the fixed default although an entry has key `PATH`. -/
theorem C6_empty_key_and_path_entry :
    ((main (calm (some 0)) noEnv 1000 1000
        ["rbrt", "-r", "/r", "-u", "1000", "-g", "1000", "-e", "=foo", "--",
          "/bin/true"]).environ.map (fun E => E "") = some none ∧
      lastValue ["=foo"] "" = some "foo") ∧
    ((main (calm (some 0)) noEnv 1000 1000
        ["rbrt", "-r", "/r", "-u", "1000", "-g", "1000", "-e",
          "PATH=/usr/local/sbin:/usr/local/bin:/usr/bin:/usr/bin/site_perl:/usr/bin/vendor_perl:/usr/bin/core_perl",
          "--", "/bin/true"]).environ.map (fun E => E "PATH") = some (some DEFAULT_PATH) ∧
      entryKey
        "PATH=/usr/local/sbin:/usr/local/bin:/usr/bin:/usr/bin/site_perl:/usr/bin/vendor_perl:/usr/bin/core_perl" =
        "PATH") := by
  decide

/-- C7: when the trailing command is omitted (no word `--` is followed by at
least one word), or no uid option word or no gid option word stands before the
terminator, or the option loop ends with the command, the uid or the gid still
unset, validation fails: the program exits with code 1 and makes no call at all
(no unshare, open, write, setuid, setgid, mount, chroot, fork or exec), and no
child process exists. -/
theorem C7_missing_command_or_ids_rejected (o : Oracle) (env : Env) (euid egid : Int)
    (argv : List String)
    (h : (∀ pre cmd, argv.drop 1 = pre ++ "--" :: cmd →
          cmd = [] ∨ ("-u" ∉ pre ∧ "--uid" ∉ pre) ∨ ("-g" ∉ pre ∧ "--gid" ∉ pre)) ∨
        (∀ st, parseArgs o argv = some st →
          st.process_args = none ∨ st.uid = -1 ∨ st.gid = -1)) :
    (main o env euid egid argv).reporter.trace = [] ∧
      (main o env euid egid argv).reporter.exitCode = some 1 ∧
      (main o env euid egid argv).init = none ∧
      (main o env euid egid argv).workload = none := by
  have hv : validate o argv = none := by
    cases hv : validate o argv with
    | none => rfl
    | some a =>
      exfalso
      obtain ⟨st, pre, hp, hc, hsplit, hne, hu, hg, _, _⟩ := validate_some o argv a hv
      rcases h with h | h
      · rcases h pre a.process_args hsplit with h | h | h
        · exact hne h
        · rcases hu with hu | hu
          · exact h.1 hu
          · exact h.2 hu
        · rcases hg with hg | hg
          · exact h.1 hg
          · exact h.2 hg
      · obtain ⟨h1, _, _, _, _, _, h7, h8⟩ := check_some st a hc
        rcases h st hp with h | h | h
        · rw [h1] at h
          cases h
        · exact h7 h
        · exact h8 h
  have hm : main o env euid egid argv =
      { reporter := { trace := [], status := some (exitStatus 1) },
        init := none, workload := none, environ := none } := by
    simp only [main, hv]
  rw [hm]
  exact ⟨rfl, by decide, rfl, rfl⟩

/-- Witness of C7: the terminator is the last argument. -/
theorem C7_missing_command_or_ids_rejected_witness :
    (main (calm none) noEnv 1000 1000
        ["rbrt", "-r", "/r", "-u", "1000", "-g", "1000", "--"]).reporter.trace = [] ∧
      (main (calm none) noEnv 1000 1000
        ["rbrt", "-r", "/r", "-u", "1000", "-g", "1000", "--"]).reporter.exitCode = some 1 :=
  ⟨(C7_missing_command_or_ids_rejected (calm none) noEnv 1000 1000
      ["rbrt", "-r", "/r", "-u", "1000", "-g", "1000", "--"]
      (Or.inr (fun st hst => by
        have hnone : parseArgs (calm none)
            ["rbrt", "-r", "/r", "-u", "1000", "-g", "1000", "--"] = none := by decide
        rw [hnone] at hst
        cases hst))).1,
   (C7_missing_command_or_ids_rejected (calm none) noEnv 1000 1000
      ["rbrt", "-r", "/r", "-u", "1000", "-g", "1000", "--"]
      (Or.inr (fun st hst => by
        have hnone : parseArgs (calm none)
            ["rbrt", "-r", "/r", "-u", "1000", "-g", "1000", "--"] = none := by decide
        rw [hnone] at hst
        cases hst))).2.1⟩

/-- C8: the program accepts a uid with trailing characters and a negative gid,
and reaches the first unshare and the later calls with uid 12 and gid -5. -/
theorem C8_malformed_ids_accepted :
    validate (calm (some 0))
        ["rbrt", "-r", "/r", "-u", "12abc", "-g", "-5", "--", "/bin/true"] =
      some { rootfs := "/r", rw_root := false, uid := 12, gid := -5, mounts := [], envs := [],
             process_args := ["/bin/true"] } ∧
    (main (calm (some 0)) noEnv 1000 1000
        ["rbrt", "-r", "/r", "-u", "12abc", "-g", "-5", "--", "/bin/true"]).reporter.trace =
      [ .unshare (CLONE_NEWUSER ||| CLONE_NEWPID),
        .openRW "/proc/self/setgroups", .write "/proc/self/setgroups" "deny",
        .close "/proc/self/setgroups",
        .openRW "/proc/self/uid_map", .write "/proc/self/uid_map" "12 1000 1",
        .close "/proc/self/uid_map",
        .openRW "/proc/self/gid_map", .write "/proc/self/gid_map" "-5 1000 1",
        .close "/proc/self/gid_map",
        .setuid 12, .setgid (-5), .fork, .waitpid 7 ] := by
  decide

/-- C9 (amended): every bind-mount entry recorded by an accepted argument
vector contains `:`, so it is source + ":" + target with no `:` in the source
(the target may be empty); an entry without `:` is rejected by the option
loop. -/
theorem C9_recorded_mounts_have_separator (o : Oracle) (argv : List String) (a : Launch)
    (hv : validate o argv = some a) :
    (∀ m, m ∈ a.mounts →
        Char.ofNat 58 ∈ m.data ∧
        m = before (Char.ofNat 58) m ++ ":" ++ after (Char.ofNat 58) m ∧
        Char.ofNat 58 ∉ (before (Char.ofNat 58) m).data) ∧
      (∀ st v rest, Char.ofNat 58 ∉ v.data →
        parseLoop o st ("-m" :: v :: rest) = none ∧
        parseLoop o st ("--mount" :: v :: rest) = none) := by
  obtain ⟨_, _, _, _, _, _, _, _, hm, _⟩ := validate_some o argv a hv
  refine ⟨fun m hmem => ?_, fun st v rest h => parseLoop_mount_rejected o st v rest h⟩
  have hsep := hm m hmem
  obtain ⟨h1, h2⟩ := entry_split _ m hsep
  refine ⟨(hasSep_iff _ _).1 hsep, ?_, h2⟩
  apply String.ext
  rw [String.data_append, String.data_append]
  simpa using h1

/-- Witness of C9 (amended): the entry of the end-to-end example. -/
theorem C9_recorded_mounts_have_separator_witness :
    ("/host/data:data" : String) =
      before (Char.ofNat 58) "/host/data:data" ++ ":" ++ after (Char.ofNat 58) "/host/data:data" :=
  ((C9_recorded_mounts_have_separator (calm (some 0)) argvData launchData (by decide)).1
    "/host/data:data" (by decide)).2.1

/-- Counterexample to C9 as stated: the entry `src:` is accepted, its target
is empty, and the namespace-init process mounts `src` on the root path
followed by "/". -/
theorem C9_empty_target_accepted :
    validate (calm (some 0))
        ["rbrt", "-r", "/r", "-u", "0", "-g", "0", "-m", "src:", "--", "/bin/true"] =
      some { rootfs := "/r", rw_root := false, uid := 0, gid := 0, mounts := ["src:"],
             envs := [], process_args := ["/bin/true"] } ∧
    after (Char.ofNat 58) "src:" = "" ∧
    (main (calm (some 0)) noEnv 1000 1000
        ["rbrt", "-r", "/r", "-u", "0", "-g", "0", "-m", "src:", "--", "/bin/true"]).init.map
      (fun p => p.trace[15]?) = some (some (Op.mount (some "src") "/r/" none (MS_BIND ||| MS_REC))) := by
  decide

/-- C10: when the command is terminated by a signal (bits 8..15 of its wait
status are zero, the low 7 bits are a non-zero signal number) and every call
succeeds, the namespace-init process and the outermost process both exit with
code 0, which is the status they have when the command exits with code 0. -/
theorem C10_signal_reported_as_success (o : Oracle) (env : Env) (euid egid : Int)
    (argv : List String) (a : Launch) (st : Nat) (hvalid : validate o argv = some a)
    (hall : ∀ role i, o.sys role i = true) (hcode : (st / 256) % 256 = 0)
    (_hsig : st % 128 ≠ 0) (hcmd : o.command = some st) :
    (∃ p, (main o env euid egid argv).init = some p ∧ p.exitCode = some 0) ∧
      (main o env euid egid argv).reporter.exitCode = some 0 ∧
      (main o env euid egid argv).reporter.status =
        (main { o with command := some 0 } env euid egid argv).reporter.status := by
  obtain ⟨h1, h2, _⟩ := launch_all_ok o env euid egid a hall
  obtain ⟨k1, _, _⟩ := launch_all_ok { o with command := some 0 } env euid egid a hall
  have hv : validate { o with command := some 0 } argv = some a := by
    rw [← hvalid]
    exact validate_congr { o with command := some 0 } o rfl rfl argv
  have e0 : WEXITSTATUS st = 0 := hcode
  rw [main_of_validate env euid egid hvalid, main_of_validate env euid egid hv, h1, h2, k1, hcmd]
  refine ⟨⟨_, rfl, ?_⟩, ?_, ?_⟩
  · simp only [Proc.exitCode, Option.map_some', e0]
    decide
  · simp only [Proc.exitCode, Option.map_some', e0]
    decide
  · simp only [Option.map_some', e0]
    decide

/-- Witness of C10: a command killed by SIGKILL (wait status 9). -/
theorem C10_signal_reported_as_success_witness :
    (main (calm (some 9)) noEnv 1000 1000 argvFalse).reporter.exitCode = some 0 :=
  (C10_signal_reported_as_success (calm (some 9)) noEnv 1000 1000 argvFalse launchFalse 9
    (by decide) (fun _ _ => rfl) (by decide) (by decide) rfl).2.1

end Rbrt
